import Mathlib

/-!
Verification of the settlement/reconciliation core of the gold-app backend.

The development shallowly embeds the four route handlers that touch the
`transactions` and `portfolio` tables:

* `POST /api/buy/create-order`        (src/routes/buy.ts)      → `createOrder`
* `POST /api/buy/verify-payment`      (src/routes/buy.ts)      → `verifyPayment`
* `POST /api/webhooks/cashfree`       (src/routes/webhooks.ts) → `webhookCashfree`
* `POST /api/sell/request`            (sell route)             → `sellRequest`
* `POST /api/admin/withdrawals/:id/approve` (src/routes/admin.ts) → `approveWithdrawal`
* `POST /api/admin/withdrawals/:id/reject`  (src/routes/admin.ts) → `rejectWithdrawal`

MySQL DECIMAL columns are modelled as rationals; each handler's single DB
transaction is modelled as a pure function `DBState → DBState × Outcome`
(a rollback returns the input state).  External collaborators (the Cashfree
gateway, the authenticated user id, the current gold price row, the user's
KYC row) enter as explicit parameters, exactly as the handlers read them.
-/

namespace GoldApp

/-- `type` column of the `transactions` table: ENUM('buy','withdraw'). -/
inductive TxType
  | buy
  | withdraw
deriving DecidableEq

/-- `status` column of the `transactions` table:
ENUM('pending','completed','failed','rejected','pending_payout'). -/
inductive TxStatus
  | pending
  | completed
  | failed
  | rejected
  | pendingPayout
deriving DecidableEq

/-- One row of the `transactions` table (the settlement-request record). -/
structure Txn where
  id : Nat
  user_id : Nat
  type : TxType
  status : TxStatus
  amount_inr : ℚ
  grams : ℚ
  price_per_gram : ℚ
  payment_id : Option String
  cashfree_order_id : Option String
  rejected_reason : Option String
deriving DecidableEq

/-- The durable state the settlement core mutates: the `transactions` table,
the `portfolio` table (user_id is a UNIQUE key; each pair is
(user_id, total_grams)), and the AUTO_INCREMENT counter for transaction ids. -/
structure DBState where
  transactions : List Txn
  portfolioRows : List (Nat × ℚ)
  nextId : Nat
deriving DecidableEq

/-- The empty database (AUTO_INCREMENT starts at 1). -/
def initState : DBState := { transactions := [], portfolioRows := [], nextId := 1 }

/-- `SELECT total_grams FROM portfolio WHERE user_id = ?` (user_id is UNIQUE). -/
def portLookup : List (Nat × ℚ) → Nat → Option ℚ
  | [], _ => none
  | r :: rs, uid => if r.1 = uid then some r.2 else portLookup rs uid

/-- A user's current balance as every handler reads it: the stored
`total_grams`, or 0 when the user has no portfolio row yet
(`getUserGoldBalance` / the admin route's `portfolioRows.length > 0 ? … : 0`). -/
def portVal (s : DBState) (uid : Nat) : ℚ := (portLookup s.portfolioRows uid).getD 0

/-- `INSERT INTO portfolio (user_id, total_grams) VALUES (?, g)
ON DUPLICATE KEY UPDATE total_grams = total_grams + g`
(user_id is a UNIQUE key, so at most one row can match). -/
def upsertAdd : List (Nat × ℚ) → Nat → ℚ → List (Nat × ℚ)
  | [], uid, g => [(uid, g)]
  | r :: rs, uid, g => if r.1 = uid then (r.1, r.2 + g) :: rs else r :: upsertAdd rs uid g

/-- `INSERT INTO portfolio (user_id, total_grams) VALUES (?, 0)
ON DUPLICATE KEY UPDATE total_grams = total_grams - g` (admin approve, step 4). -/
def upsertSubOrZero : List (Nat × ℚ) → Nat → ℚ → List (Nat × ℚ)
  | [], uid, _ => [(uid, 0)]
  | r :: rs, uid, g => if r.1 = uid then (r.1, r.2 - g) :: rs else r :: upsertSubOrZero rs uid g

/-- `UPDATE portfolio SET total_grams = GREATEST(0, total_grams) WHERE user_id = ?`
(admin approve, defensive clamp). -/
def clampRow : List (Nat × ℚ) → Nat → List (Nat × ℚ)
  | [], _ => []
  | r :: rs, uid => if r.1 = uid then (r.1, max 0 r.2) :: rs else r :: clampRow rs uid

/-- `UPDATE transactions SET … WHERE id = ?` (id is the primary key). -/
def updateById (txns : List Txn) (i : Nat) (f : Txn → Txn) : List Txn :=
  txns.map (fun t => if t.id = i then f t else t)

/-- JavaScript truthiness of a nullable string: `null`/`undefined` and the
empty string are falsy. -/
def strTruthy : Option String → Bool
  | none => false
  | some s => !(s = "")

/-- JavaScript `a || b` on nullable strings (used for
`cashfreeCfOrderId || transaction.payment_id` and `order.cf_order_id || null`). -/
def jsOrStr (a b : Option String) : Option String := if strTruthy a then a else b

/-- JavaScript `String.prototype.trim()`: strip leading and trailing
whitespace (executable rendering over the character list). -/
def strTrim (s : String) : String :=
  ⟨((s.data.dropWhile Char.isWhitespace).reverse.dropWhile
      Char.isWhitespace).reverse⟩

/-- `const terminalFailureStatuses = ['FAILED', 'EXPIRED', 'CANCELLED']`. -/
def terminalFailureStatuses : List String := ["FAILED", "EXPIRED", "CANCELLED"]

/-- `parseFloat(x.toFixed(2))`: rounding to 2 decimal places (half away from
zero on the positive amounts that occur here). -/
def round2 (q : ℚ) : ℚ := (⌊q * 100 + 1 / 2⌋ : ℚ) / 100

/-- `parseFloat(x.toFixed(4))`: rounding to 4 decimal places. -/
def round4 (q : ℚ) : ℚ := (⌊q * 10000 + 1 / 2⌋ : ℚ) / 10000

/-- The mandatory payout-identity columns of the `users` row
(bank account + KYC), each nullable. -/
structure UserKyc where
  bank_account_name : Option String
  bank_account_number : Option String
  bank_ifsc_code : Option String
  pan_card_number : Option String
  aadhaar_card_number : Option String
deriving DecidableEq

/-- The sell route's mandatory-details check:
`!userDetails || !bank_account_name || !bank_account_number || !bank_ifsc_code
|| !pan_card_number || !aadhaar_card_number` (negated). -/
def kycComplete : Option UserKyc → Bool
  | none => false
  | some d =>
      strTruthy d.bank_account_name && strTruthy d.bank_account_number &&
      strTruthy d.bank_ifsc_code && strTruthy d.pan_card_number &&
      strTruthy d.aadhaar_card_number

/-- A concrete pending Buy request (Scenario A of the spec: amount 6850 at
price 6850 yields 1.0000 grams), used to witness the settlement theorems. -/
def pendingBuyTxn : Txn :=
  { id := 1, user_id := 7, type := TxType.buy, status := TxStatus.pending,
    amount_inr := 6850, grams := 1, price_per_gram := 6850,
    payment_id := none, cashfree_order_id := some "GOLD_TXN_7_1_100",
    rejected_reason := none }

/-- A database holding just the pending Buy request above. -/
def sPendingBuy : DBState :=
  { transactions := [pendingBuyTxn], portfolioRows := [], nextId := 2 }

/-- The same Buy request after a failed settlement (Scenario B). -/
def failedBuyTxn : Txn := { pendingBuyTxn with status := TxStatus.failed }

/-- A database holding just the failed Buy request. -/
def sFailedBuy : DBState :=
  { transactions := [failedBuyTxn], portfolioRows := [], nextId := 2 }

/-- A pending Withdraw request for 2.0000 grams (Scenario C). -/
def pendingWithdrawTxn : Txn :=
  { id := 1, user_id := 7, type := TxType.withdraw, status := TxStatus.pending,
    amount_inr := 13700, grams := 2, price_per_gram := 6850,
    payment_id := none, cashfree_order_id := none, rejected_reason := none }

/-- A database where user 7 requested to withdraw 2.0000 grams but the
balance has since dropped to 1.0000 grams. -/
def sPendingWithdraw : DBState :=
  { transactions := [pendingWithdrawTxn], portfolioRows := [(7, 1)], nextId := 2 }

/-- A users row with all mandatory payout-identity fields populated. -/
def fullKyc : UserKyc :=
  { bank_account_name := some "A", bank_account_number := some "123",
    bank_ifsc_code := some "IFSC1", pan_card_number := some "P1",
    aadhaar_card_number := some "A1" }

/-- A users row missing one mandatory payout-identity field (Scenario D). -/
def incompleteKyc : UserKyc := { fullKyc with pan_card_number := none }

/-- A database where user 7 holds exactly 2.0000 grams. -/
def sBalanceTwo : DBState :=
  { transactions := [], portfolioRows := [(7, 2)], nextId := 1 }

/-- Outcome of `POST /api/buy/verify-payment` (the poll-path settlement). -/
inductive VerifyOutcome
  | success (gramsAdded amountPaid : ℚ)
  | alreadyVerified (gramsAdded amountPaid : ℚ)
  | conflict (st : TxStatus)
  | notFound
  | invalidGrams
  | paymentNotSuccessful (st : String)
  | stillPending (st : String)
deriving DecidableEq

/-- `POST /api/buy/verify-payment`.  The handler first calls
`PGFetchOrder(order_id)`; the gateway's reply enters as `gwStatus`
(`order.order_status`), `cfOrderRef` (`order.cf_order_id`) and
`orderAmount` (`order.order_amount`).  `uid` is the authenticated caller. -/
def verifyPayment (s : DBState) (uid : Nat) (oid : String) (gwStatus : String)
    (cfOrderRef : Option String) (orderAmount : ℚ) : DBState × VerifyOutcome :=
  if gwStatus = "PAID" then
    -- SELECT * FROM transactions WHERE cashfree_order_id = ? AND user_id = ? LIMIT 1 FOR UPDATE
    match s.transactions.find? (fun t =>
        t.cashfree_order_id == some oid && t.user_id == uid) with
    | none => (s, VerifyOutcome.notFound)
    | some t =>
        if t.status = TxStatus.completed then
          -- idempotency check: already completed, rollback, report prior result
          (s, VerifyOutcome.alreadyVerified t.grams t.amount_inr)
        else if ¬ (t.status = TxStatus.pending) then
          -- 409: terminal but not completed
          (s, VerifyOutcome.conflict t.status)
        else if t.grams ≤ 0 then
          -- `isNaN(grams) || grams <= 0`: rollback and throw
          (s, VerifyOutcome.invalidGrams)
        else
          ({ s with
              transactions := updateById s.transactions t.id (fun u =>
                { u with status := TxStatus.completed, payment_id := cfOrderRef }),
              portfolioRows := upsertAdd s.portfolioRows uid t.grams },
           VerifyOutcome.success t.grams orderAmount)
  else if gwStatus ∈ terminalFailureStatuses then
    -- SELECT … WHERE cashfree_order_id = ? AND user_id = ? AND status = 'pending' LIMIT 1
    match s.transactions.find? (fun t =>
        t.cashfree_order_id == some oid && t.user_id == uid &&
        t.status == TxStatus.pending) with
    | some t =>
        ({ s with
            transactions := updateById s.transactions t.id (fun u =>
              { u with status := TxStatus.failed,
                       payment_id := jsOrStr cfOrderRef none }) },
         VerifyOutcome.paymentNotSuccessful gwStatus)
    | none => (s, VerifyOutcome.paymentNotSuccessful gwStatus)
  else
    -- indeterminate status (ACTIVE, …): no DB update at all
    (s, VerifyOutcome.stillPending gwStatus)

/-- Outcome of `POST /api/webhooks/cashfree` (the callback-path settlement). -/
inductive WebhookOutcome
  | notFoundIgnored
  | ignoredTerminal
  | completedNow
  | invalidGrams
  | failedNow
  | nonTerminalIgnored
deriving DecidableEq

/-- `POST /api/webhooks/cashfree`, after the signature has been verified and
the payload parsed: `oid` is `data.order.order_id`, `gwStatus` is
`data.order.order_status`, `cfPaymentId` is `data.payment.cf_payment_id`.
The lookup is by order id alone (no user filter). -/
def webhookCashfree (s : DBState) (oid : String) (gwStatus : String)
    (cfPaymentId : Option String) : DBState × WebhookOutcome :=
  -- SELECT * FROM transactions WHERE cashfree_order_id = ? LIMIT 1
  match s.transactions.find? (fun t => t.cashfree_order_id == some oid) with
  | none => (s, WebhookOutcome.notFoundIgnored)
  | some t =>
      if t.status = TxStatus.completed ∨ t.status = TxStatus.failed then
        -- already in terminal state: rollback, ignore
        (s, WebhookOutcome.ignoredTerminal)
      else if gwStatus = "PAID" then
        if t.grams ≤ 0 then
          (s, WebhookOutcome.invalidGrams)
        else
          ({ s with
              transactions := updateById s.transactions t.id (fun u =>
                { u with status := TxStatus.completed,
                         payment_id := jsOrStr cfPaymentId t.payment_id }),
              portfolioRows := upsertAdd s.portfolioRows t.user_id t.grams },
           WebhookOutcome.completedNow)
      else if gwStatus ∈ terminalFailureStatuses then
        ({ s with
            transactions := updateById s.transactions t.id (fun u =>
              { u with status := TxStatus.failed,
                       payment_id := jsOrStr cfPaymentId t.payment_id }) },
         WebhookOutcome.failedNow)
      else
        (s, WebhookOutcome.nonTerminalIgnored)

/-- Outcome of `POST /api/admin/withdrawals/:id/approve`. -/
inductive ApproveOutcome
  | missingRef
  | notFound
  | autoRejected (balance : ℚ)
  | approved
deriving DecidableEq

/-- The system-supplied reason stamped by the auto-reject branch. -/
def autoRejectReason : String := "Insufficient balance at time of approval/payout"

/-- `POST /api/admin/withdrawals/:id/approve` (admin decision, Approve arm). -/
def approveWithdrawal (s : DBState) (txnId : Nat) (referenceId : String) :
    DBState × ApproveOutcome :=
  if strTrim referenceId = "" then (s, ApproveOutcome.missingRef)
  else
    -- SELECT * FROM transactions WHERE id = ? AND type='withdraw' AND status='pending' FOR UPDATE
    match s.transactions.find? (fun t =>
        t.id == txnId && t.type == TxType.withdraw && t.status == TxStatus.pending) with
    | none => (s, ApproveOutcome.notFound)
    | some t =>
        -- SELECT total_grams FROM portfolio WHERE user_id = ? FOR UPDATE
        let currentBalance := portVal s t.user_id
        if currentBalance < t.grams then
          -- balance insufficient: reject instead of approving (committed)
          ({ s with
              transactions := updateById s.transactions t.id (fun u =>
                { u with status := TxStatus.rejected,
                         rejected_reason := some autoRejectReason }) },
           ApproveOutcome.autoRejected currentBalance)
        else
          ({ s with
              transactions := updateById s.transactions t.id (fun u =>
                { u with status := TxStatus.completed,
                         rejected_reason := none,
                         cashfree_order_id := some (strTrim referenceId) }),
              portfolioRows :=
                clampRow (upsertSubOrZero s.portfolioRows t.user_id t.grams) t.user_id },
           ApproveOutcome.approved)

/-- Outcome of `POST /api/admin/withdrawals/:id/reject`. -/
inductive RejectOutcome
  | missingReason
  | notFound
  | rejectedOk
deriving DecidableEq

/-- `POST /api/admin/withdrawals/:id/reject` (admin decision, Reject arm). -/
def rejectWithdrawal (s : DBState) (txnId : Nat) (reason : String) :
    DBState × RejectOutcome :=
  if strTrim reason = "" then (s, RejectOutcome.missingReason)
  else
    match s.transactions.find? (fun t =>
        t.id == txnId && t.type == TxType.withdraw && t.status == TxStatus.pending) with
    | none => (s, RejectOutcome.notFound)
    | some t =>
        ({ s with
            transactions := updateById s.transactions t.id (fun u =>
              { u with status := TxStatus.rejected,
                       rejected_reason := some reason.trim }) },
         RejectOutcome.rejectedOk)

/-- Outcome of `POST /api/sell/request` (createRequest for Withdraw). -/
inductive SellOutcome
  | invalidAmount
  | kycRequired
  | insufficientBalance (balance : ℚ)
  | priceError
  | created (gramsRequested estimatedValue : ℚ)
deriving DecidableEq

/-- `POST /api/sell/request`.  `gramsToSell` is `parseFloat(req.body.gramsToSell)`
(`none` models `NaN`); `userDetails` is the caller's users row (`none` if
absent); `goldPrice` is the `current_gold_price` setting (`none` if the row is
missing).  Checks run in source order: amount, KYC, balance, price, insert. -/
def sellRequest (s : DBState) (uid : Nat) (gramsToSell : Option ℚ)
    (userDetails : Option UserKyc) (goldPrice : Option ℚ) : DBState × SellOutcome :=
  match gramsToSell with
  | none => (s, SellOutcome.invalidAmount)
  | some grams =>
      if grams ≤ 0 then (s, SellOutcome.invalidAmount)
      else if ¬ kycComplete userDetails then (s, SellOutcome.kycRequired)
      else
        let currentBalance := portVal s uid
        if currentBalance < grams then (s, SellOutcome.insufficientBalance currentBalance)
        else
          match goldPrice with
          | none => (s, SellOutcome.priceError)
          | some pricePerGram =>
              if pricePerGram ≤ 0 then (s, SellOutcome.priceError)
              else
                let amountInr := round2 (grams * pricePerGram)
                ({ s with
                    transactions := s.transactions ++
                      [{ id := s.nextId, user_id := uid, type := TxType.withdraw,
                         status := TxStatus.pending, amount_inr := amountInr,
                         grams := grams, price_per_gram := pricePerGram,
                         payment_id := none, cashfree_order_id := none,
                         rejected_reason := none }],
                    nextId := s.nextId + 1 },
                 SellOutcome.created grams amountInr)

/-- Outcome of `POST /api/buy/create-order` (createRequest for Buy). -/
inductive CreateOrderOutcome
  | invalidAmount
  | priceError
  | invalidGrams
  | userError
  | gatewayError
  | created (txnId : Nat) (orderId : String)
deriving DecidableEq

/-- `POST /api/buy/create-order`.  `amountInRupees` is
`parseFloat(req.body.amountInRupees)` (`none` models `NaN`); `goldPrice` is
the price row; `now` is `Date.now()`; `gatewayOk` tells whether
`PGCreateOrder` succeeded (a failure rolls the inserted row back);
`userFound` tells whether `getUserDetails` found the caller's row. -/
def createOrder (s : DBState) (uid : Nat) (amountInRupees : Option ℚ)
    (goldPrice : Option ℚ) (now : Nat) (gatewayOk : Bool) (userFound : Bool) :
    DBState × CreateOrderOutcome :=
  match amountInRupees with
  | none => (s, CreateOrderOutcome.invalidAmount)
  | some amount =>
      if amount ≤ 0 then (s, CreateOrderOutcome.invalidAmount)
      else
        match goldPrice with
        | none => (s, CreateOrderOutcome.priceError)
        | some pricePerGram =>
            if pricePerGram ≤ 0 then (s, CreateOrderOutcome.priceError)
            else
              let grams := round4 (amount / pricePerGram)
              if grams ≤ 0 then (s, CreateOrderOutcome.invalidGrams)
              else if ¬ userFound then (s, CreateOrderOutcome.userError)
              else
                -- INSERT a 'pending' buy row, then PGCreateOrder, then UPDATE
                -- the row with the minted order id; a gateway error rolls the
                -- whole DB transaction back.
                let txnId := s.nextId
                let orderId :=
                  "GOLD_TXN_" ++ toString uid ++ "_" ++ toString txnId ++ "_" ++ toString now
                if ¬ gatewayOk then (s, CreateOrderOutcome.gatewayError)
                else
                  ({ s with
                      transactions := s.transactions ++
                        [{ id := txnId, user_id := uid, type := TxType.buy,
                           status := TxStatus.pending, amount_inr := amount,
                           grams := grams, price_per_gram := pricePerGram,
                           payment_id := none,
                           cashfree_order_id := some orderId,
                           rejected_reason := none }],
                      nextId := s.nextId + 1 },
                   CreateOrderOutcome.created txnId orderId)

/-- One invocation of a settlement-core operation, with all the external
inputs (gateway replies, clock, admin input, price row) it consumes. -/
inductive Op
  | opCreateOrder (uid : Nat) (amount : Option ℚ) (price : Option ℚ) (now : Nat)
      (gatewayOk : Bool) (userFound : Bool)
  | opSellRequest (uid : Nat) (grams : Option ℚ) (details : Option UserKyc)
      (price : Option ℚ)
  | opVerify (uid : Nat) (oid : String) (gwStatus : String) (cfRef : Option String)
      (orderAmount : ℚ)
  | opWebhook (oid : String) (gwStatus : String) (cfId : Option String)
  | opApprove (txnId : Nat) (ref : String)
  | opReject (txnId : Nat) (reason : String)

/-- Apply one operation to the database state (discarding the HTTP outcome). -/
def applyOp (s : DBState) : Op → DBState
  | Op.opCreateOrder uid amount price now gOk uFound =>
      (createOrder s uid amount price now gOk uFound).1
  | Op.opSellRequest uid grams details price => (sellRequest s uid grams details price).1
  | Op.opVerify uid oid gwStatus cfRef orderAmount =>
      (verifyPayment s uid oid gwStatus cfRef orderAmount).1
  | Op.opWebhook oid gwStatus cfId => (webhookCashfree s oid gwStatus cfId).1
  | Op.opApprove txnId ref => (approveWithdrawal s txnId ref).1
  | Op.opReject txnId reason => (rejectWithdrawal s txnId reason).1

/-- Apply a sequence of operations, left to right. -/
def applyOps (ops : List Op) (s : DBState) : DBState := ops.foldl applyOp s

/-- Units credited (Buy) or debited (Withdraw) to an account by one completed
row; 0 for every non-completed row. -/
def contrib (t : Txn) (uid : Nat) : ℚ :=
  if t.user_id = uid ∧ t.status = TxStatus.completed then
    (match t.type with
     | TxType.buy => t.grams
     | TxType.withdraw => -t.grams)
  else 0

/-- The spec's derived balance: sum of `units` over the account's completed
Buy requests minus the sum over its completed Withdraw requests. -/
def derivedUnits (txns : List Txn) (uid : Nat) : ℚ :=
  ((txns.filter (fun t => t.user_id == uid && t.status == TxStatus.completed &&
      t.type == TxType.buy)).map Txn.grams).sum -
  ((txns.filter (fun t => t.user_id == uid && t.status == TxStatus.completed &&
      t.type == TxType.withdraw)).map Txn.grams).sum

/-- Abstract classification of a settlement call's effect on the request:
freshly completes it, freshly fails it, or mutates nothing. -/
inductive SettleClass
  | completesNow
  | failsNow
  | noMutation
deriving DecidableEq

/-- Classification of a poll-path (verify-payment) outcome. -/
def classifyVerify : VerifyOutcome → SettleClass
  | VerifyOutcome.success _ _ => SettleClass.completesNow
  | VerifyOutcome.paymentNotSuccessful _ => SettleClass.failsNow
  | _ => SettleClass.noMutation

/-- Classification of a callback-path (webhook) outcome. -/
def classifyWebhook : WebhookOutcome → SettleClass
  | WebhookOutcome.completedNow => SettleClass.completesNow
  | WebhookOutcome.failedNow => SettleClass.failsNow
  | _ => SettleClass.noMutation

/-- The core spec invariant: every account's stored `total_grams` equals the
derived balance Σ(units of completed Buy) − Σ(units of completed Withdraw). -/
def ledgerInv (s : DBState) : Prop :=
  ∀ uid, portVal s uid = derivedUnits s.transactions uid

/-- Every persisted request has strictly positive units (both creation routes
reject `grams <= 0` before inserting). -/
def gramsPos (s : DBState) : Prop := ∀ t ∈ s.transactions, 0 < t.grams

/-- Which rows can carry an external order id: pending/completed/failed Buy
rows (minted at creation) and completed Withdraw rows (stamped with the
payout reference at approval).  In particular a `rejected` row never has one. -/
def rowShape (t : Txn) : Prop :=
  t.cashfree_order_id ≠ none →
    (t.type = TxType.buy ∧
      (t.status = TxStatus.pending ∨ t.status = TxStatus.completed ∨
        t.status = TxStatus.failed)) ∨
    (t.type = TxType.withdraw ∧ t.status = TxStatus.completed)

/-- `rowShape` holds of every row. -/
def orderIdShape (s : DBState) : Prop := ∀ t ∈ s.transactions, rowShape t

/-- Every row id is below the AUTO_INCREMENT counter. -/
def idsBounded (s : DBState) : Prop := ∀ t ∈ s.transactions, t.id < s.nextId

/-- Row ids are pairwise distinct (primary key). -/
def idsDistinct (s : DBState) : Prop := (s.transactions.map Txn.id).Nodup

/-- Every stored balance is nonnegative. -/
def balNonneg (s : DBState) : Prop := ∀ r ∈ s.portfolioRows, 0 ≤ r.2

/-- The inductive invariant of the settlement core. -/
structure Inv (s : DBState) : Prop where
  ledger : ledgerInv s
  pos : gramsPos s
  shape : orderIdShape s
  bounded : idsBounded s
  distinct : idsDistinct s
  nonneg : balNonneg s

/-! ### Lemmas about the portfolio table -/

theorem portLookup_upsertAdd_self (rows : List (Nat × ℚ)) (uid : Nat) (g : ℚ) :
    portLookup (upsertAdd rows uid g) uid = some ((portLookup rows uid).getD 0 + g) := by
  induction rows with
  | nil => simp [upsertAdd, portLookup]
  | cons r rs ih =>
      by_cases h : r.1 = uid
      · simp [upsertAdd, portLookup, h]
      · simp [upsertAdd, portLookup, h, ih]

theorem portLookup_upsertAdd_other (rows : List (Nat × ℚ)) (uid u : Nat) (g : ℚ)
    (h : u ≠ uid) : portLookup (upsertAdd rows uid g) u = portLookup rows u := by
  induction rows with
  | nil => simp [upsertAdd, portLookup, Ne.symm h]
  | cons r rs ih =>
      by_cases hr : r.1 = uid
      · simp [upsertAdd, portLookup, hr, Ne.symm h]
      · by_cases hu : r.1 = u <;> simp [upsertAdd, portLookup, hr, hu, ih, h, Ne.symm h]

theorem portLookup_subclamp_some (rows : List (Nat × ℚ)) (uid : Nat) (g v : ℚ)
    (h : portLookup rows uid = some v) :
    portLookup (clampRow (upsertSubOrZero rows uid g) uid) uid = some (max 0 (v - g)) := by
  induction rows with
  | nil => simp [portLookup] at h
  | cons r rs ih =>
      by_cases hr : r.1 = uid
      · simp [portLookup, hr] at h
        simp [upsertSubOrZero, clampRow, portLookup, hr, h]
      · simp [portLookup, hr] at h
        simp [upsertSubOrZero, clampRow, portLookup, hr, ih h]

theorem portLookup_subclamp_none (rows : List (Nat × ℚ)) (uid : Nat) (g : ℚ)
    (h : portLookup rows uid = none) :
    portLookup (clampRow (upsertSubOrZero rows uid g) uid) uid = some 0 := by
  induction rows with
  | nil => simp [upsertSubOrZero, clampRow, portLookup]
  | cons r rs ih =>
      by_cases hr : r.1 = uid
      · simp [portLookup, hr] at h
      · simp [portLookup, hr] at h
        simp [upsertSubOrZero, clampRow, portLookup, hr, ih h]

theorem portLookup_subclamp_other (rows : List (Nat × ℚ)) (uid u : Nat) (g : ℚ)
    (h : u ≠ uid) :
    portLookup (clampRow (upsertSubOrZero rows uid g) uid) u = portLookup rows u := by
  induction rows with
  | nil => simp [upsertSubOrZero, clampRow, portLookup, Ne.symm h]
  | cons r rs ih =>
      by_cases hr : r.1 = uid
      · simp [upsertSubOrZero, clampRow, portLookup, hr, Ne.symm h]
      · by_cases hu : r.1 = u <;>
          simp [upsertSubOrZero, clampRow, portLookup, hr, hu, ih, h, Ne.symm h]

theorem upsertAdd_nonneg (rows : List (Nat × ℚ)) (uid : Nat) (g : ℚ)
    (h : ∀ r ∈ rows, 0 ≤ r.2) (hg : 0 ≤ g) : ∀ r ∈ upsertAdd rows uid g, 0 ≤ r.2 := by
  induction rows with
  | nil => simpa [upsertAdd] using hg
  | cons r rs ih =>
      by_cases hr : r.1 = uid
      · intro x hx
        simp only [upsertAdd, if_pos hr, List.mem_cons] at hx
        rcases hx with rfl | hx
        · exact add_nonneg (h r (by simp)) hg
        · exact h x (by simp [hx])
      · intro x hx
        simp only [upsertAdd, if_neg hr, List.mem_cons] at hx
        rcases hx with rfl | hx
        · exact h x (by simp)
        · exact ih (fun r hr => h r (by simp [hr])) x hx

theorem subclamp_nonneg (rows : List (Nat × ℚ)) (uid : Nat) (g : ℚ)
    (h : ∀ r ∈ rows, 0 ≤ r.2) :
    ∀ r ∈ clampRow (upsertSubOrZero rows uid g) uid, 0 ≤ r.2 := by
  induction rows with
  | nil =>
      intro x hx
      simp only [upsertSubOrZero, clampRow, if_pos rfl, List.mem_singleton,
        if_true, eq_self_iff_true] at hx
      simp [hx]
  | cons r rs ih =>
      by_cases hr : r.1 = uid
      · intro x hx
        simp only [upsertSubOrZero, clampRow, if_pos hr, List.mem_cons] at hx
        rcases hx with rfl | hx
        · exact le_max_left 0 _
        · exact h x (by simp [hx])
      · intro x hx
        simp only [upsertSubOrZero, clampRow, if_neg hr, List.mem_cons] at hx
        rcases hx with rfl | hx
        · exact h x (by simp)
        · exact ih (fun r hr => h r (by simp [hr])) x hx

/-! ### Generic list lemmas -/

theorem find?_map_comm {α : Type} (l : List α) (p : α → Bool) (g : α → α) :
    (l.map g).find? p = (l.find? (fun x => p (g x))).map g := by
  induction l with
  | nil => rfl
  | cons x xs ih => by_cases h : p (g x) <;> simp [List.find?_cons, h, ih]

/-! ### Lemmas about the derived balance -/

theorem derivedUnits_nil (uid : Nat) : derivedUnits [] uid = 0 := by
  simp [derivedUnits]

theorem derivedUnits_cons (t : Txn) (l : List Txn) (uid : Nat) :
    derivedUnits (t :: l) uid = contrib t uid + derivedUnits l uid := by
  unfold derivedUnits contrib
  by_cases h1 : t.user_id = uid
  · by_cases h2 : t.status = TxStatus.completed
    · cases htype : t.type <;> simp [List.filter_cons, h1, h2, htype] <;> ring
    · simp [List.filter_cons, h1, h2]
  · simp [List.filter_cons, h1]

theorem derivedUnits_append_single (l : List Txn) (t : Txn) (uid : Nat) :
    derivedUnits (l ++ [t]) uid = derivedUnits l uid + contrib t uid := by
  induction l with
  | nil => simp [derivedUnits_cons, derivedUnits_nil]
  | cons x xs ih => simp [derivedUnits_cons, ih]; ring

/-! ### Lemmas about UPDATE … WHERE id = ? -/

theorem updateById_eq_self (txns : List Txn) (i : Nat) (f : Txn → Txn)
    (h : ∀ u ∈ txns, u.id ≠ i) : updateById txns i f = txns := by
  induction txns with
  | nil => rfl
  | cons x xs ih =>
      simp only [updateById, List.map_cons, if_neg (h x (by simp))]
      rw [show xs.map (fun t => if t.id = i then f t else t) =
        updateById xs i f from rfl, ih (fun u hu => h u (by simp [hu]))]

theorem updateById_cons (x : Txn) (xs : List Txn) (i : Nat) (f : Txn → Txn) :
    updateById (x :: xs) i f = (if x.id = i then f x else x) :: updateById xs i f := rfl

theorem derivedUnits_updateById (txns : List Txn) (t : Txn) (f : Txn → Txn) (uid : Nat)
    (hn : (txns.map Txn.id).Nodup) (ht : t ∈ txns) :
    derivedUnits (updateById txns t.id f) uid =
      derivedUnits txns uid - contrib t uid + contrib (f t) uid := by
  induction txns with
  | nil => simp at ht
  | cons x xs ih =>
      have hn0 := hn
      rw [List.map_cons, List.nodup_cons] at hn0
      have hn' := hn0
      rcases List.mem_cons.mp ht with rfl | htx
      · rw [updateById_cons, if_pos rfl,
          updateById_eq_self xs t.id f
            (fun u hu he => hn'.1 (he ▸ List.mem_map_of_mem Txn.id hu)),
          derivedUnits_cons, derivedUnits_cons]
        ring
      · have hxid : x.id ≠ t.id := fun he =>
          hn'.1 (he ▸ List.mem_map_of_mem Txn.id htx)
        rw [updateById_cons, if_neg hxid, derivedUnits_cons, derivedUnits_cons,
          ih hn'.2 htx]
        ring

theorem mem_updateById_or (txns : List Txn) (t u : Txn) (f : Txn → Txn)
    (hn : (txns.map Txn.id).Nodup) (ht : t ∈ txns)
    (hu : u ∈ updateById txns t.id f) : u ∈ txns ∨ u = f t := by
  obtain ⟨v, hv, rfl⟩ := List.mem_map.mp hu
  by_cases hid : v.id = t.id
  · have : v = t := List.inj_on_of_nodup_map hn hv ht hid
    subst this
    right
    rw [if_pos rfl]
  · left
    rw [if_neg hid]
    exact hv

theorem updateById_map_id (txns : List Txn) (i : Nat) (f : Txn → Txn)
    (hf : ∀ u, (f u).id = u.id) :
    (updateById txns i f).map Txn.id = txns.map Txn.id := by
  unfold updateById
  rw [List.map_map]
  refine List.map_congr_left (fun u _ => ?_)
  by_cases h : u.id = i <;> simp [h, hf]

theorem mem_updateById_of_ne (txns : List Txn) (t : Txn) (i : Nat) (f : Txn → Txn)
    (ht : t ∈ txns) (hne : t.id ≠ i) : t ∈ updateById txns i f := by
  have := List.mem_map_of_mem (fun u => if u.id = i then f u else u) ht
  simpa [updateById, if_neg hne] using this

/-! ### Unpacking the SQL row lookups -/

theorem find_orderUser_facts {l : List Txn} {oid : String} {uid : Nat} {t : Txn}
    (h : l.find? (fun t => t.cashfree_order_id == some oid && t.user_id == uid) = some t) :
    t ∈ l ∧ t.cashfree_order_id = some oid ∧ t.user_id = uid := by
  have h1 := List.find?_some h
  have h2 := List.mem_of_find?_eq_some h
  simp only [Bool.and_eq_true, beq_iff_eq] at h1
  exact ⟨h2, h1.1, h1.2⟩

theorem find_orderUserPending_facts {l : List Txn} {oid : String} {uid : Nat} {t : Txn}
    (h : l.find? (fun t => t.cashfree_order_id == some oid && t.user_id == uid &&
      t.status == TxStatus.pending) = some t) :
    t ∈ l ∧ t.cashfree_order_id = some oid ∧ t.user_id = uid ∧
      t.status = TxStatus.pending := by
  have h1 := List.find?_some h
  have h2 := List.mem_of_find?_eq_some h
  simp only [Bool.and_eq_true, beq_iff_eq] at h1
  exact ⟨h2, h1.1.1, h1.1.2, h1.2⟩

theorem find_order_facts {l : List Txn} {oid : String} {t : Txn}
    (h : l.find? (fun t => t.cashfree_order_id == some oid) = some t) :
    t ∈ l ∧ t.cashfree_order_id = some oid := by
  have h1 := List.find?_some h
  have h2 := List.mem_of_find?_eq_some h
  simp only [beq_iff_eq] at h1
  exact ⟨h2, h1⟩

theorem find_pendingWithdraw_facts {l : List Txn} {txnId : Nat} {t : Txn}
    (h : l.find? (fun t => t.id == txnId && t.type == TxType.withdraw &&
      t.status == TxStatus.pending) = some t) :
    t ∈ l ∧ t.id = txnId ∧ t.type = TxType.withdraw ∧ t.status = TxStatus.pending := by
  have h1 := List.find?_some h
  have h2 := List.mem_of_find?_eq_some h
  simp only [Bool.and_eq_true, beq_iff_eq] at h1
  exact ⟨h2, h1.1.1, h1.1.2, h1.2⟩

/-- A row holding an external order id and not yet terminal is a pending Buy. -/
theorem shape_pending_buy {s : DBState} {t : Txn} {oid : String}
    (hs : orderIdShape s) (ht : t ∈ s.transactions)
    (hoid : t.cashfree_order_id = some oid)
    (hnc : ¬ t.status = TxStatus.completed) (hnf : ¬ t.status = TxStatus.failed) :
    t.type = TxType.buy ∧ t.status = TxStatus.pending := by
  have := hs t ht (by simp [hoid])
  rcases this with ⟨hb, hst⟩ | ⟨hw, hst⟩
  · rcases hst with hp | hc | hf
    · exact ⟨hb, hp⟩
    · exact absurd hc hnc
    · exact absurd hf hnf
  · exact absurd hst hnc

/-! ### Invariant preservation: the three mutation patterns -/

/-- Inserting a fresh pending row (both creation routes). -/
theorem inv_insert {s : DBState} {t : Txn} (h : Inv s)
    (hid : t.id = s.nextId) (hst : t.status = TxStatus.pending)
    (hg : 0 < t.grams) (hshape : rowShape t) :
    Inv { s with transactions := s.transactions ++ [t], nextId := s.nextId + 1 } := by
  constructor
  · intro uid
    have := h.ledger uid
    simp only [portVal] at this ⊢
    rw [derivedUnits_append_single]
    have hc : contrib t uid = 0 := by simp [contrib, hst]
    simpa [hc] using this
  · intro u hu
    rcases List.mem_append.mp hu with hu | hu
    · exact h.pos u hu
    · rw [List.mem_singleton.mp hu]
      exact hg
  · intro u hu
    rcases List.mem_append.mp hu with hu | hu
    · exact h.shape u hu
    · rw [List.mem_singleton.mp hu]
      exact hshape
  · intro u hu
    rcases List.mem_append.mp hu with hu | hu
    · exact Nat.lt_succ_of_lt (h.bounded u hu)
    · rw [List.mem_singleton.mp hu, hid]
      exact Nat.lt_succ_self _
  · have hb := h.distinct
    simp only [idsDistinct, List.map_append, List.map_cons, List.map_nil] at hb ⊢
    rw [List.nodup_append]
    refine ⟨hb, List.nodup_singleton _, ?_⟩
    intro a ha hb'
    obtain ⟨u, hu, rfl⟩ := List.mem_map.mp ha
    rw [List.mem_singleton, hid] at hb'
    exact Nat.ne_of_lt (h.bounded u hu) hb'
  · exact h.nonneg

/-- Marking one row terminal without touching the ledger
(verify/webhook failure branches, both rejection branches). -/
theorem inv_mark {s : DBState} {t : Txn} {f : Txn → Txn} (h : Inv s)
    (ht : t ∈ s.transactions)
    (hid : ∀ u, (f u).id = u.id) (hgr : (f t).grams = t.grams)
    (hc : ∀ uid, contrib (f t) uid = contrib t uid)
    (hshape : rowShape (f t)) :
    Inv { s with transactions := updateById s.transactions t.id f } := by
  constructor
  · intro uid
    have := h.ledger uid
    simp only [portVal] at this ⊢
    rw [derivedUnits_updateById s.transactions t f uid h.distinct ht, hc]
    simpa using this
  · intro u hu
    rcases mem_updateById_or s.transactions t u f h.distinct ht hu with hu | rfl
    · exact h.pos u hu
    · rw [hgr]
      exact h.pos t ht
  · intro u hu
    rcases mem_updateById_or s.transactions t u f h.distinct ht hu with hu | rfl
    · exact h.shape u hu
    · exact hshape
  · intro u hu
    rcases mem_updateById_or s.transactions t u f h.distinct ht hu with hu | rfl
    · exact h.bounded u hu
    · rw [hid]
      exact h.bounded t ht
  · have := updateById_map_id s.transactions t.id f hid
    simp only [idsDistinct, this]
    exact h.distinct
  · exact h.nonneg

/-- Completing a pending Buy: mark completed and credit the buyer. -/
theorem inv_complete_buy {s : DBState} {t : Txn} {f : Txn → Txn} (h : Inv s)
    (ht : t ∈ s.transactions) (hst : t.status = TxStatus.pending)
    (_hty : t.type = TxType.buy) (hg : 0 < t.grams)
    (hid : ∀ u, (f u).id = u.id) (hgr : (f t).grams = t.grams)
    (huser : (f t).user_id = t.user_id) (hfst : (f t).status = TxStatus.completed)
    (hfty : (f t).type = TxType.buy) :
    Inv { s with transactions := updateById s.transactions t.id f,
                 portfolioRows := upsertAdd s.portfolioRows t.user_id t.grams } := by
  constructor
  · intro uid
    have hl := h.ledger uid
    simp only [portVal] at hl ⊢
    rw [derivedUnits_updateById s.transactions t f uid h.distinct ht]
    have hct : contrib t uid = 0 := by simp [contrib, hst]
    have hcf : contrib (f t) uid =
        if t.user_id = uid then t.grams else 0 := by
      by_cases he : t.user_id = uid <;> simp [contrib, hfst, huser, hfty, hgr, he]
    by_cases he : uid = t.user_id
    · subst he
      rw [portLookup_upsertAdd_self]
      simp only [Option.getD_some]
      rw [hct, hcf, if_pos rfl, hl]
      ring
    · rw [portLookup_upsertAdd_other _ _ _ _ he]
      rw [hct, hcf, if_neg (fun hx => he hx.symm)]
      simpa using hl
  · intro u hu
    rcases mem_updateById_or s.transactions t u f h.distinct ht hu with hu | rfl
    · exact h.pos u hu
    · rw [hgr]
      exact h.pos t ht
  · intro u hu
    rcases mem_updateById_or s.transactions t u f h.distinct ht hu with hu | rfl
    · exact h.shape u hu
    · intro _
      exact Or.inl ⟨hfty, Or.inr (Or.inl hfst)⟩
  · intro u hu
    rcases mem_updateById_or s.transactions t u f h.distinct ht hu with hu | rfl
    · exact h.bounded u hu
    · rw [hid]
      exact h.bounded t ht
  · have := updateById_map_id s.transactions t.id f hid
    simp only [idsDistinct, this]
    exact h.distinct
  · exact upsertAdd_nonneg s.portfolioRows t.user_id t.grams h.nonneg (le_of_lt hg)

/-- Approving a pending Withdraw with sufficient balance: mark completed and
debit the account (with the GREATEST(0,·) clamp a no-op). -/
theorem inv_complete_withdraw {s : DBState} {t : Txn} {f : Txn → Txn} (h : Inv s)
    (ht : t ∈ s.transactions) (hst : t.status = TxStatus.pending)
    (_hty : t.type = TxType.withdraw) (hbal : t.grams ≤ portVal s t.user_id)
    (hid : ∀ u, (f u).id = u.id) (hgr : (f t).grams = t.grams)
    (huser : (f t).user_id = t.user_id) (hfst : (f t).status = TxStatus.completed)
    (hfty : (f t).type = TxType.withdraw) (hshape : rowShape (f t)) :
    Inv { s with transactions := updateById s.transactions t.id f,
                 portfolioRows :=
                   clampRow (upsertSubOrZero s.portfolioRows t.user_id t.grams)
                     t.user_id } := by
  have hg : 0 < t.grams := h.pos t ht
  have hsome : ∃ v, portLookup s.portfolioRows t.user_id = some v := by
    cases hv : portLookup s.portfolioRows t.user_id with
    | none =>
        exfalso
        have : portVal s t.user_id = 0 := by simp [portVal, hv]
        rw [this] at hbal
        exact absurd (lt_of_lt_of_le hg hbal) (lt_irrefl 0)
    | some v => exact ⟨v, rfl⟩
  obtain ⟨v, hv⟩ := hsome
  have hvval : portVal s t.user_id = v := by simp [portVal, hv]
  constructor
  · intro uid
    have hl := h.ledger uid
    simp only [portVal] at hl ⊢
    rw [derivedUnits_updateById s.transactions t f uid h.distinct ht]
    have hct : contrib t uid = 0 := by simp [contrib, hst]
    have hcf : contrib (f t) uid =
        if t.user_id = uid then -t.grams else 0 := by
      by_cases he : t.user_id = uid <;> simp [contrib, hfst, huser, hfty, hgr, he]
    by_cases he : uid = t.user_id
    · subst he
      rw [portLookup_subclamp_some _ _ _ _ hv]
      simp only [Option.getD_some]
      have hnn : 0 ≤ v - t.grams := by
        rw [← hvval]
        exact sub_nonneg.mpr hbal
      rw [max_eq_right hnn, hct, hcf, if_pos rfl]
      have hdv : derivedUnits s.transactions t.user_id = v := by
        rw [← hl]
        simp [hv]
      rw [hdv]
      ring
    · rw [portLookup_subclamp_other _ _ _ _ he]
      rw [hct, hcf, if_neg (fun hx => he hx.symm)]
      simpa using hl
  · intro u hu
    rcases mem_updateById_or s.transactions t u f h.distinct ht hu with hu | rfl
    · exact h.pos u hu
    · rw [hgr]
      exact h.pos t ht
  · intro u hu
    rcases mem_updateById_or s.transactions t u f h.distinct ht hu with hu | rfl
    · exact h.shape u hu
    · exact hshape
  · intro u hu
    rcases mem_updateById_or s.transactions t u f h.distinct ht hu with hu | rfl
    · exact h.bounded u hu
    · rw [hid]
      exact h.bounded t ht
  · have := updateById_map_id s.transactions t.id f hid
    simp only [idsDistinct, this]
    exact h.distinct
  · exact subclamp_nonneg s.portfolioRows t.user_id t.grams h.nonneg

/-! ### Invariant preservation, per operation -/

theorem inv_createOrder {s : DBState} (h : Inv s) (uid : Nat) (amount price : Option ℚ)
    (now : Nat) (gOk uFound : Bool) :
    Inv (createOrder s uid amount price now gOk uFound).1 := by
  unfold createOrder
  cases amount with
  | none => exact h
  | some a =>
      dsimp only
      split
      · exact h
      · cases price with
        | none => exact h
        | some p =>
            dsimp only
            split
            · exact h
            · split
              · exact h
              · split
                · exact h
                · split
                  · exact h
                  · rename_i hgr _ _
                    exact inv_insert h rfl rfl (not_le.mp hgr)
                      (fun _ => Or.inl ⟨rfl, Or.inl rfl⟩)

theorem inv_sellRequest {s : DBState} (h : Inv s) (uid : Nat) (grams : Option ℚ)
    (details : Option UserKyc) (price : Option ℚ) :
    Inv (sellRequest s uid grams details price).1 := by
  unfold sellRequest
  cases grams with
  | none => exact h
  | some g =>
      dsimp only
      split
      · exact h
      · split
        · exact h
        · split
          · exact h
          · cases price with
            | none => exact h
            | some p =>
                dsimp only
                split
                · exact h
                · rename_i hgr _ _ _
                  exact inv_insert h rfl rfl (not_le.mp hgr) (fun hx => absurd rfl hx)

theorem inv_verifyPayment {s : DBState} (h : Inv s) (uid : Nat) (oid gw : String)
    (ref : Option String) (amt : ℚ) :
    Inv (verifyPayment s uid oid gw ref amt).1 := by
  unfold verifyPayment
  by_cases hgw : gw = "PAID"
  · rw [if_pos hgw]
    cases hfind : s.transactions.find? (fun t =>
        t.cashfree_order_id == some oid && t.user_id == uid) with
    | none => exact h
    | some t =>
        obtain ⟨ht, hoid, huid⟩ := find_orderUser_facts hfind
        dsimp only
        by_cases hc : t.status = TxStatus.completed
        · rw [if_pos hc]; exact h
        · rw [if_neg hc]
          by_cases hp : t.status = TxStatus.pending
          · rw [if_neg (not_not_intro hp)]
            by_cases hg : t.grams ≤ 0
            · rw [if_pos hg]; exact h
            · rw [if_neg hg]
              have hbuy := shape_pending_buy h.shape ht hoid hc (by simp [hp])
              rw [← huid]
              exact inv_complete_buy h ht hp hbuy.1 (not_le.mp hg)
                (fun _ => rfl) rfl rfl rfl hbuy.1
          · rw [if_pos hp]; exact h
  · rw [if_neg hgw]
    by_cases htf : gw ∈ terminalFailureStatuses
    · rw [if_pos htf]
      cases hfind : s.transactions.find? (fun t =>
          t.cashfree_order_id == some oid && t.user_id == uid &&
          t.status == TxStatus.pending) with
      | none => exact h
      | some t =>
          obtain ⟨ht, hoid, huid, hp⟩ := find_orderUserPending_facts hfind
          dsimp only
          have hbuy := shape_pending_buy h.shape ht hoid (by simp [hp]) (by simp [hp])
          refine inv_mark h ht (fun _ => rfl) rfl (fun u => ?_) ?_
          · simp [contrib, hp]
          · intro _
            exact Or.inl ⟨hbuy.1, Or.inr (Or.inr rfl)⟩
    · rw [if_neg htf]; exact h

theorem inv_webhookCashfree {s : DBState} (h : Inv s) (oid gw : String)
    (cfId : Option String) :
    Inv (webhookCashfree s oid gw cfId).1 := by
  unfold webhookCashfree
  cases hfind : s.transactions.find? (fun t => t.cashfree_order_id == some oid) with
  | none => exact h
  | some t =>
      obtain ⟨ht, hoid⟩ := find_order_facts hfind
      dsimp only
      by_cases hterm : t.status = TxStatus.completed ∨ t.status = TxStatus.failed
      · rw [if_pos hterm]; exact h
      · rw [if_neg hterm]
        have hnc : ¬ t.status = TxStatus.completed := fun hx => hterm (Or.inl hx)
        have hnf : ¬ t.status = TxStatus.failed := fun hx => hterm (Or.inr hx)
        have hbuy := shape_pending_buy h.shape ht hoid hnc hnf
        by_cases hgw : gw = "PAID"
        · rw [if_pos hgw]
          by_cases hg : t.grams ≤ 0
          · rw [if_pos hg]; exact h
          · rw [if_neg hg]
            exact inv_complete_buy h ht hbuy.2 hbuy.1 (not_le.mp hg)
              (fun _ => rfl) rfl rfl rfl hbuy.1
        · rw [if_neg hgw]
          by_cases htf : gw ∈ terminalFailureStatuses
          · rw [if_pos htf]
            refine inv_mark h ht (fun _ => rfl) rfl (fun u => ?_) ?_
            · simp [contrib, hbuy.2]
            · intro _
              exact Or.inl ⟨hbuy.1, Or.inr (Or.inr rfl)⟩
          · rw [if_neg htf]; exact h

theorem inv_approveWithdrawal {s : DBState} (h : Inv s) (txnId : Nat) (ref : String) :
    Inv (approveWithdrawal s txnId ref).1 := by
  unfold approveWithdrawal
  split
  · exact h
  · cases hfind : s.transactions.find? (fun t =>
        t.id == txnId && t.type == TxType.withdraw && t.status == TxStatus.pending) with
    | none => exact h
    | some t =>
        obtain ⟨ht, hid, hw, hp⟩ := find_pendingWithdraw_facts hfind
        have hnone : t.cashfree_order_id = none := by
          by_contra hx
          rcases h.shape t ht hx with ⟨hb, _⟩ | ⟨_, hc⟩
          · rw [hw] at hb
            exact TxType.noConfusion hb
          · rw [hp] at hc
            exact TxStatus.noConfusion hc
        dsimp only
        by_cases hlt : portVal s t.user_id < t.grams
        · rw [if_pos hlt]
          refine inv_mark h ht (fun _ => rfl) rfl (fun u => ?_) ?_
          · simp [contrib, hp]
          · intro hx
            exact absurd hnone hx
        · rw [if_neg hlt]
          exact inv_complete_withdraw h ht hp hw (not_lt.mp hlt)
            (fun _ => rfl) rfl rfl rfl hw (fun _ => Or.inr ⟨hw, rfl⟩)

theorem inv_rejectWithdrawal {s : DBState} (h : Inv s) (txnId : Nat) (reason : String) :
    Inv (rejectWithdrawal s txnId reason).1 := by
  unfold rejectWithdrawal
  split
  · exact h
  · cases hfind : s.transactions.find? (fun t =>
        t.id == txnId && t.type == TxType.withdraw && t.status == TxStatus.pending) with
    | none => exact h
    | some t =>
        obtain ⟨ht, hid, hw, hp⟩ := find_pendingWithdraw_facts hfind
        have hnone : t.cashfree_order_id = none := by
          by_contra hx
          rcases h.shape t ht hx with ⟨hb, _⟩ | ⟨_, hc⟩
          · rw [hw] at hb
            exact TxType.noConfusion hb
          · rw [hp] at hc
            exact TxStatus.noConfusion hc
        dsimp only
        refine inv_mark h ht (fun _ => rfl) rfl (fun u => ?_) ?_
        · simp [contrib, hp]
        · intro hx
          exact absurd hnone hx

theorem inv_applyOp {s : DBState} (h : Inv s) (o : Op) : Inv (applyOp s o) := by
  cases o with
  | opCreateOrder uid amount price now gOk uFound =>
      exact inv_createOrder h uid amount price now gOk uFound
  | opSellRequest uid grams details price => exact inv_sellRequest h uid grams details price
  | opVerify uid oid gw ref amt => exact inv_verifyPayment h uid oid gw ref amt
  | opWebhook oid gw cfId => exact inv_webhookCashfree h oid gw cfId
  | opApprove txnId ref => exact inv_approveWithdrawal h txnId ref
  | opReject txnId reason => exact inv_rejectWithdrawal h txnId reason

theorem inv_applyOps (ops : List Op) : ∀ s : DBState, Inv s → Inv (applyOps ops s) := by
  induction ops with
  | nil => intro s h; exact h
  | cons o os ih =>
      intro s h
      rw [applyOps, List.foldl_cons]
      exact ih _ (inv_applyOp h o)

theorem inv_initState : Inv initState := by
  constructor
  · intro uid
    simp [initState, portVal, portLookup, derivedUnits]
  · intro t ht
    simp [initState] at ht
  · intro t ht
    simp [initState] at ht
  · intro t ht
    simp [initState] at ht
  · simp [initState, idsDistinct]
  · intro r hr
    simp [initState] at hr

/-! ### Further helper lemmas -/

theorem portLookup_mem {rows : List (Nat × ℚ)} {uid : Nat} {v : ℚ}
    (h : portLookup rows uid = some v) : (uid, v) ∈ rows := by
  induction rows with
  | nil => simp [portLookup] at h
  | cons r rs ih =>
      by_cases hr : r.1 = uid
      · simp only [portLookup, if_pos hr, Option.some.injEq] at h
        have : (uid, v) = r := by
          rw [← hr, ← h]
        rw [this]
        exact List.mem_cons_self r rs
      · simp only [portLookup, if_neg hr] at h
        right
        exact ih h

theorem find?_updateById {txns : List Txn} {p : Txn → Bool} {t : Txn}
    (hf : txns.find? p = some t) (i : Nat) (f : Txn → Txn)
    (hp : ∀ u, p (if u.id = i then f u else u) = p u) :
    (updateById txns i f).find? p = some (if t.id = i then f t else t) := by
  unfold updateById
  rw [find?_map_comm]
  have hfe : (fun x => p (if x.id = i then f x else x)) = p := funext hp
  rw [hfe, hf]
  rfl

/-! ### The claim theorems -/

/-- C1: for every account, after any sequence of settlement-core operations
starting from the empty database, the holding's `total_grams` equals the sum
of `grams` over that account's completed Buy requests minus the sum over its
completed Withdraw requests. -/
theorem ledger_equals_derived_units (ops : List Op) (uid : Nat) :
    portVal (applyOps ops initState) uid =
      derivedUnits (applyOps ops initState).transactions uid :=
  (inv_applyOps ops initState inv_initState).ledger uid

/-- C9: for every account, after any sequence of settlement-core operations
starting from the empty database, the holding's `total_grams` is never
negative. -/
theorem ledger_never_negative (ops : List Op) (uid : Nat) :
    0 ≤ portVal (applyOps ops initState) uid := by
  have h := (inv_applyOps ops initState inv_initState).nonneg
  unfold portVal
  cases hv : portLookup (applyOps ops initState).portfolioRows uid with
  | none => simp
  | some v =>
      simp only [Option.getD_some]
      exact h (uid, v) (portLookup_mem hv)

/-- C2: for a pending request matching a paid external order id, invoking the
settlement operation twice with the same paid status mutates the holdings
ledger exactly once (the account's balance is incremented by the request's
units on the first call only), and the second call returns the outcome
recorded by the first call rather than an error — on the poll path the
recorded completed outcome, on the callback path the terminal-state
acknowledgment. -/
theorem settle_paid_idempotent {s : DBState} {oid : String} {uid : Nat} {t : Txn}
    (hfind : s.transactions.find? (fun t =>
      t.cashfree_order_id == some oid && t.user_id == uid) = some t)
    (hwfind : s.transactions.find? (fun t => t.cashfree_order_id == some oid) = some t)
    (hp : t.status = TxStatus.pending) (hg : 0 < t.grams)
    (ref ref2 cf cf2 : Option String) (amt amt2 : ℚ) :
    (verifyPayment s uid oid "PAID" ref amt).2 = VerifyOutcome.success t.grams amt ∧
    portVal (verifyPayment s uid oid "PAID" ref amt).1 uid = portVal s uid + t.grams ∧
    verifyPayment (verifyPayment s uid oid "PAID" ref amt).1 uid oid "PAID" ref2 amt2 =
      ((verifyPayment s uid oid "PAID" ref amt).1,
        VerifyOutcome.alreadyVerified t.grams t.amount_inr) ∧
    (webhookCashfree s oid "PAID" cf).2 = WebhookOutcome.completedNow ∧
    portVal (webhookCashfree s oid "PAID" cf).1 t.user_id =
      portVal s t.user_id + t.grams ∧
    webhookCashfree (webhookCashfree s oid "PAID" cf).1 oid "PAID" cf2 =
      ((webhookCashfree s oid "PAID" cf).1, WebhookOutcome.ignoredTerminal) := by
  have hnc : ¬ t.status = TxStatus.completed := by
    rw [hp]
    exact fun hx => TxStatus.noConfusion hx
  have hng : ¬ t.grams ≤ 0 := not_le.mpr hg
  have h1 : verifyPayment s uid oid "PAID" ref amt =
      ({ s with
          transactions := updateById s.transactions t.id (fun u =>
            { u with status := TxStatus.completed, payment_id := ref }),
          portfolioRows := upsertAdd s.portfolioRows uid t.grams },
        VerifyOutcome.success t.grams amt) := by
    unfold verifyPayment
    rw [if_pos rfl, hfind]
    dsimp only
    rw [if_neg hnc, if_neg (not_not_intro hp), if_neg hng]
  have hterm : ¬ (t.status = TxStatus.completed ∨ t.status = TxStatus.failed) := by
    rw [hp]
    rintro (hx | hx) <;> exact TxStatus.noConfusion hx
  have h1w : webhookCashfree s oid "PAID" cf =
      ({ s with
          transactions := updateById s.transactions t.id (fun u =>
            { u with status := TxStatus.completed,
                     payment_id := jsOrStr cf t.payment_id }),
          portfolioRows := upsertAdd s.portfolioRows t.user_id t.grams },
        WebhookOutcome.completedNow) := by
    unfold webhookCashfree
    rw [hwfind]
    dsimp only
    rw [if_neg hterm, if_pos rfl, if_neg hng]
  have hf2 := find?_updateById hfind t.id
    (fun u => { u with status := TxStatus.completed, payment_id := ref })
    (by intro u; by_cases h : u.id = t.id <;> simp [h])
  rw [if_pos rfl] at hf2
  have hwf2 := find?_updateById hwfind t.id
    (fun u => { u with status := TxStatus.completed,
                       payment_id := jsOrStr cf t.payment_id })
    (by intro u; by_cases h : u.id = t.id <;> simp [h])
  rw [if_pos rfl] at hwf2
  refine ⟨by rw [h1], ?_, ?_, by rw [h1w], ?_, ?_⟩
  · rw [h1]
    unfold portVal
    dsimp only
    rw [portLookup_upsertAdd_self]
    simp
  · rw [h1]
    dsimp only
    unfold verifyPayment
    rw [if_pos rfl]
    dsimp only
    rw [hf2]
    dsimp only
    rw [if_pos rfl]
  · rw [h1w]
    unfold portVal
    dsimp only
    rw [portLookup_upsertAdd_self]
    simp
  · rw [h1w]
    dsimp only
    unfold webhookCashfree
    rw [hwf2]
    dsimp only
    rw [if_pos (Or.inl rfl)]

/-- Witness for C2: user 7's pending Buy of 1.0000 grams (order
GOLD_TXN_7_1_100) settled twice by each path. -/
theorem settle_paid_idempotent_witness :
    (verifyPayment sPendingBuy 7 "GOLD_TXN_7_1_100" "PAID" (some "cfA") 6850).2 =
      VerifyOutcome.success 1 6850 ∧
    portVal (verifyPayment sPendingBuy 7 "GOLD_TXN_7_1_100" "PAID" (some "cfA") 6850).1 7 =
      portVal sPendingBuy 7 + 1 ∧
    verifyPayment (verifyPayment sPendingBuy 7 "GOLD_TXN_7_1_100" "PAID" (some "cfA") 6850).1
        7 "GOLD_TXN_7_1_100" "PAID" (some "cfB") 6850 =
      ((verifyPayment sPendingBuy 7 "GOLD_TXN_7_1_100" "PAID" (some "cfA") 6850).1,
        VerifyOutcome.alreadyVerified 1 6850) ∧
    (webhookCashfree sPendingBuy "GOLD_TXN_7_1_100" "PAID" (some "cfA")).2 =
      WebhookOutcome.completedNow ∧
    portVal (webhookCashfree sPendingBuy "GOLD_TXN_7_1_100" "PAID" (some "cfA")).1 7 =
      portVal sPendingBuy 7 + 1 ∧
    webhookCashfree (webhookCashfree sPendingBuy "GOLD_TXN_7_1_100" "PAID" (some "cfA")).1
        "GOLD_TXN_7_1_100" "PAID" (some "cfB") =
      ((webhookCashfree sPendingBuy "GOLD_TXN_7_1_100" "PAID" (some "cfA")).1,
        WebhookOutcome.ignoredTerminal) :=
  @settle_paid_idempotent sPendingBuy "GOLD_TXN_7_1_100" 7 pendingBuyTxn
    (by decide) (by decide) rfl (by decide)
    (some "cfA") (some "cfB") (some "cfA") (some "cfB") 6850 6850

theorem find?_eq_of_unique {α : Type} {l : List α} {p : α → Bool} {t : α}
    (ht : t ∈ l) (hp : p t = true) (huniq : ∀ u ∈ l, p u = true → u = t) :
    l.find? p = some t := by
  induction l with
  | nil => simp at ht
  | cons x xs ih =>
      by_cases hx : p x
      · rw [List.find?_cons_of_pos _ hx, huniq x (by simp) hx]
      · rw [List.find?_cons_of_neg _ hx]
        have htx : t ∈ xs := by
          rcases List.mem_cons.mp ht with rfl | htx
          · exact absurd hp hx
          · exact htx
        exact ih htx (fun u hu hpu => huniq u (by simp [hu]) hpu)

/-- A non-pending row is never mutated by the poll-path settlement (only
pending rows are updated, whichever branch runs). -/
theorem verify_row_untouched {s : DBState} {t : Txn} (uid : Nat) (oid gw : String)
    (ref : Option String) (amt : ℚ)
    (hn : (s.transactions.map Txn.id).Nodup) (ht : t ∈ s.transactions)
    (hnp : ¬ t.status = TxStatus.pending) :
    t ∈ (verifyPayment s uid oid gw ref amt).1.transactions := by
  unfold verifyPayment
  by_cases hgw : gw = "PAID"
  · rw [if_pos hgw]
    cases hfind : s.transactions.find? (fun x =>
        x.cashfree_order_id == some oid && x.user_id == uid) with
    | none => exact ht
    | some t0 =>
        dsimp only
        by_cases hc : t0.status = TxStatus.completed
        · rw [if_pos hc]; exact ht
        · rw [if_neg hc]
          by_cases hp : t0.status = TxStatus.pending
          · rw [if_neg (not_not_intro hp)]
            by_cases hgr : t0.grams ≤ 0
            · rw [if_pos hgr]; exact ht
            · rw [if_neg hgr]
              dsimp only
              have ht0 := List.mem_of_find?_eq_some hfind
              have hne : t.id ≠ t0.id := fun he =>
                hnp ((List.inj_on_of_nodup_map hn ht ht0 he) ▸ hp)
              exact mem_updateById_of_ne s.transactions t t0.id _ ht hne
          · rw [if_pos hp]; exact ht
  · rw [if_neg hgw]
    by_cases htf : gw ∈ terminalFailureStatuses
    · rw [if_pos htf]
      cases hfind : s.transactions.find? (fun x =>
          x.cashfree_order_id == some oid && x.user_id == uid &&
          x.status == TxStatus.pending) with
      | none => exact ht
      | some t0 =>
          dsimp only
          obtain ⟨ht0, _, _, hp⟩ := find_orderUserPending_facts hfind
          have hne : t.id ≠ t0.id := fun he =>
            hnp ((List.inj_on_of_nodup_map hn ht ht0 he) ▸ hp)
          exact mem_updateById_of_ne s.transactions t t0.id _ ht hne
    · rw [if_neg htf]; exact ht

/-- A completed/failed row, or any row without an external order id, is never
mutated by the callback-path settlement. -/
theorem webhook_row_untouched {s : DBState} {t : Txn} (oid gw : String)
    (cf : Option String)
    (hn : (s.transactions.map Txn.id).Nodup) (ht : t ∈ s.transactions)
    (hsafe : t.status = TxStatus.completed ∨ t.status = TxStatus.failed ∨
      t.cashfree_order_id = none) :
    t ∈ (webhookCashfree s oid gw cf).1.transactions := by
  unfold webhookCashfree
  cases hfind : s.transactions.find? (fun x => x.cashfree_order_id == some oid) with
  | none => exact ht
  | some t0 =>
      dsimp only
      obtain ⟨ht0, hoid0⟩ := find_order_facts hfind
      by_cases hterm : t0.status = TxStatus.completed ∨ t0.status = TxStatus.failed
      · rw [if_pos hterm]; exact ht
      · rw [if_neg hterm]
        have hne : t.id ≠ t0.id := by
          intro he
          have heq := List.inj_on_of_nodup_map hn ht ht0 he
          rcases hsafe with hx | hx | hx
          · exact hterm (Or.inl (heq ▸ hx))
          · exact hterm (Or.inr (heq ▸ hx))
          · rw [← heq, hx] at hoid0
            exact Option.noConfusion hoid0
        by_cases hgw : gw = "PAID"
        · rw [if_pos hgw]
          by_cases hgr : t0.grams ≤ 0
          · rw [if_pos hgr]; exact ht
          · rw [if_neg hgr]
            exact mem_updateById_of_ne s.transactions t t0.id _ ht hne
        · rw [if_neg hgw]
          by_cases htf : gw ∈ terminalFailureStatuses
          · rw [if_pos htf]
            exact mem_updateById_of_ne s.transactions t t0.id _ ht hne
          · rw [if_neg htf]; exact ht

/-- C3: terminal states are absorbing.  A request in a terminal state
(completed, failed, or rejected — rejected rows carry no external order id)
keeps its row under any settlement attempt; a settlement attempt addressed to
its own (unique) external order id changes neither any row nor the holdings
ledger; and after a pending→failed transition a later paid replay does not
complete the request but reports the recorded failed state. -/
theorem terminal_states_absorbing {s : DBState} {t : Txn}
    (hn : (s.transactions.map Txn.id).Nodup)
    (hrej : ∀ u ∈ s.transactions, u.status = TxStatus.rejected →
      u.cashfree_order_id = none)
    (ht : t ∈ s.transactions)
    (hterm : t.status = TxStatus.completed ∨ t.status = TxStatus.failed ∨
      t.status = TxStatus.rejected) :
    (∀ uid oid gw ref amt cf,
        t ∈ (verifyPayment s uid oid gw ref amt).1.transactions ∧
        t ∈ (webhookCashfree s oid gw cf).1.transactions) ∧
    (∀ oid, t.cashfree_order_id = some oid →
      (∀ u ∈ s.transactions, u.cashfree_order_id = some oid → u = t) →
      (∀ uid gw ref amt, (verifyPayment s uid oid gw ref amt).1 = s) ∧
      (∀ gw cf, (webhookCashfree s oid gw cf).1 = s) ∧
      (t.status = TxStatus.failed → ∀ ref amt cf,
        (verifyPayment s t.user_id oid "PAID" ref amt).2 =
          VerifyOutcome.conflict TxStatus.failed ∧
        (webhookCashfree s oid "PAID" cf).2 = WebhookOutcome.ignoredTerminal)) := by
  have hnp : ¬ t.status = TxStatus.pending := by
    rcases hterm with hx | hx | hx <;> rw [hx] <;>
      exact fun he => TxStatus.noConfusion he
  constructor
  · intro uid oid gw ref amt cf
    refine ⟨verify_row_untouched uid oid gw ref amt hn ht hnp, ?_⟩
    refine webhook_row_untouched oid gw cf hn ht ?_
    rcases hterm with hx | hx | hx
    · exact Or.inl hx
    · exact Or.inr (Or.inl hx)
    · exact Or.inr (Or.inr (hrej t ht hx))
  · intro oid hoid huniq
    have hncr : ¬ t.status = TxStatus.rejected := by
      intro hx
      rw [hrej t ht hx] at hoid
      exact Option.noConfusion hoid
    refine ⟨?_, ?_, ?_⟩
    · intro uid gw ref amt
      unfold verifyPayment
      by_cases hgw : gw = "PAID"
      · rw [if_pos hgw]
        cases hfind : s.transactions.find? (fun x =>
            x.cashfree_order_id == some oid && x.user_id == uid) with
        | none => rfl
        | some t0 =>
            obtain ⟨ht0, hoid0, _⟩ := find_orderUser_facts hfind
            have heq : t0 = t := huniq t0 ht0 hoid0
            subst heq
            dsimp only
            by_cases hc : t0.status = TxStatus.completed
            · rw [if_pos hc]
            · rw [if_neg hc, if_pos hnp]
      · rw [if_neg hgw]
        by_cases htf : gw ∈ terminalFailureStatuses
        · rw [if_pos htf]
          cases hfind : s.transactions.find? (fun x =>
              x.cashfree_order_id == some oid && x.user_id == uid &&
              x.status == TxStatus.pending) with
          | none => rfl
          | some t0 =>
              obtain ⟨ht0, hoid0, _, hp0⟩ := find_orderUserPending_facts hfind
              have heq : t0 = t := huniq t0 ht0 hoid0
              rw [heq] at hp0
              exact absurd hp0 hnp
        · rw [if_neg htf]
    · intro gw cf
      unfold webhookCashfree
      cases hfind : s.transactions.find? (fun x =>
          x.cashfree_order_id == some oid) with
      | none => rfl
      | some t0 =>
          obtain ⟨ht0, hoid0⟩ := find_order_facts hfind
          have heq : t0 = t := huniq t0 ht0 hoid0
          subst heq
          dsimp only
          have hcf : t0.status = TxStatus.completed ∨ t0.status = TxStatus.failed := by
            rcases hterm with hx | hx | hx
            · exact Or.inl hx
            · exact Or.inr hx
            · exact absurd hx hncr
          rw [if_pos hcf]
    · intro hfail ref amt cf
      have hfindv : s.transactions.find? (fun x =>
          x.cashfree_order_id == some oid && x.user_id == t.user_id) = some t :=
        find?_eq_of_unique ht (by simp [hoid])
          (fun u hu hpu => huniq u hu (by
            simp only [Bool.and_eq_true, beq_iff_eq] at hpu
            exact hpu.1))
      have hfindw : s.transactions.find? (fun x =>
          x.cashfree_order_id == some oid) = some t :=
        find?_eq_of_unique ht (by simp [hoid])
          (fun u hu hpu => huniq u hu (by
            simp only [beq_iff_eq] at hpu
            exact hpu))
      constructor
      · unfold verifyPayment
        rw [if_pos rfl, hfindv]
        dsimp only
        have hc : ¬ t.status = TxStatus.completed := by
          rw [hfail]
          exact fun he => TxStatus.noConfusion he
        rw [if_neg hc, if_pos hnp, hfail]
      · unfold webhookCashfree
        rw [hfindw]
        dsimp only
        rw [if_pos (Or.inr hfail)]

/-- Witness for C3: the failed Buy of Scenario B replayed with "PAID" on both
paths: row kept, state unchanged, recorded failed outcome reported. -/
theorem terminal_states_absorbing_witness :
    failedBuyTxn ∈
      (verifyPayment sFailedBuy 7 "GOLD_TXN_7_1_100" "PAID" (some "cfA")
        6850).1.transactions ∧
    (verifyPayment sFailedBuy 7 "GOLD_TXN_7_1_100" "PAID" (some "cfA") 6850).1 =
      sFailedBuy ∧
    (webhookCashfree sFailedBuy "GOLD_TXN_7_1_100" "PAID" (some "cfA")).1 =
      sFailedBuy ∧
    (verifyPayment sFailedBuy 7 "GOLD_TXN_7_1_100" "PAID" (some "cfA") 6850).2 =
      VerifyOutcome.conflict TxStatus.failed ∧
    (webhookCashfree sFailedBuy "GOLD_TXN_7_1_100" "PAID" (some "cfA")).2 =
      WebhookOutcome.ignoredTerminal := by
  have h := @terminal_states_absorbing sFailedBuy failedBuyTxn
    (by decide) (by decide) (by decide) (Or.inr (Or.inl rfl))
  have h2 := h.2 "GOLD_TXN_7_1_100" rfl (by decide)
  exact ⟨(h.1 7 "GOLD_TXN_7_1_100" "PAID" (some "cfA") 6850 (some "cfA")).1,
    h2.1 7 "PAID" (some "cfA") 6850,
    h2.2.1 "PAID" (some "cfA"),
    (h2.2.2 rfl (some "cfA") 6850 (some "cfA")).1,
    (h2.2.2 rfl (some "cfA") 6850 (some "cfA")).2⟩

/-- C4: the settlement operation maps the gateway-reported status, for a
pending request, as: PAID → pending→completed with the buy ledger increment;
FAILED/EXPIRED/CANCELLED → pending→failed with no ledger mutation; any other
status → no row mutation at all, still-pending reported.  Stated for both the
poll path and the callback path. -/
theorem status_dispatch {s : DBState} {oid : String} {uid : Nat} {t : Txn}
    (hfind : s.transactions.find? (fun x =>
      x.cashfree_order_id == some oid && x.user_id == uid) = some t)
    (hwfind : s.transactions.find? (fun x => x.cashfree_order_id == some oid) = some t)
    (hfindp : s.transactions.find? (fun x =>
      x.cashfree_order_id == some oid && x.user_id == uid &&
      x.status == TxStatus.pending) = some t)
    (hp : t.status = TxStatus.pending) (hg : 0 < t.grams)
    (ref cf : Option String) (amt : ℚ) :
    (verifyPayment s uid oid "PAID" ref amt =
      ({ s with
          transactions := updateById s.transactions t.id (fun u =>
            { u with status := TxStatus.completed, payment_id := ref }),
          portfolioRows := upsertAdd s.portfolioRows uid t.grams },
        VerifyOutcome.success t.grams amt)) ∧
    (webhookCashfree s oid "PAID" cf =
      ({ s with
          transactions := updateById s.transactions t.id (fun u =>
            { u with status := TxStatus.completed,
                     payment_id := jsOrStr cf t.payment_id }),
          portfolioRows := upsertAdd s.portfolioRows t.user_id t.grams },
        WebhookOutcome.completedNow)) ∧
    (∀ gw ∈ terminalFailureStatuses,
      verifyPayment s uid oid gw ref amt =
        ({ s with
            transactions := updateById s.transactions t.id (fun u =>
              { u with status := TxStatus.failed,
                       payment_id := jsOrStr ref none }) },
          VerifyOutcome.paymentNotSuccessful gw) ∧
      webhookCashfree s oid gw cf =
        ({ s with
            transactions := updateById s.transactions t.id (fun u =>
              { u with status := TxStatus.failed,
                       payment_id := jsOrStr cf t.payment_id }) },
          WebhookOutcome.failedNow)) ∧
    (∀ gw, ¬ gw = "PAID" → gw ∉ terminalFailureStatuses →
      verifyPayment s uid oid gw ref amt = (s, VerifyOutcome.stillPending gw) ∧
      webhookCashfree s oid gw cf = (s, WebhookOutcome.nonTerminalIgnored)) := by
  have hnc : ¬ t.status = TxStatus.completed := by
    rw [hp]
    exact fun hx => TxStatus.noConfusion hx
  have hng : ¬ t.grams ≤ 0 := not_le.mpr hg
  have hterm : ¬ (t.status = TxStatus.completed ∨ t.status = TxStatus.failed) := by
    rw [hp]
    rintro (hx | hx) <;> exact TxStatus.noConfusion hx
  refine ⟨?_, ?_, ?_, ?_⟩
  · unfold verifyPayment
    rw [if_pos rfl, hfind]
    dsimp only
    rw [if_neg hnc, if_neg (not_not_intro hp), if_neg hng]
  · unfold webhookCashfree
    rw [hwfind]
    dsimp only
    rw [if_neg hterm, if_pos rfl, if_neg hng]
  · intro gw hgw
    have hgwcase : gw = "FAILED" ∨ gw = "EXPIRED" ∨ gw = "CANCELLED" := by
      simpa [terminalFailureStatuses] using hgw
    have hne : ¬ gw = "PAID" := by
      rcases hgwcase with rfl | rfl | rfl <;> decide
    constructor
    · unfold verifyPayment
      rw [if_neg hne, if_pos hgw, hfindp]
    · unfold webhookCashfree
      rw [hwfind]
      dsimp only
      rw [if_neg hterm, if_neg hne, if_pos hgw]
  · intro gw h1 h2
    constructor
    · unfold verifyPayment
      rw [if_neg h1, if_neg h2]
    · unfold webhookCashfree
      rw [hwfind]
      dsimp only
      rw [if_neg hterm, if_neg h1, if_neg h2]

/-- Witness for C4: the pending Buy of Scenario A dispatched on PAID,
EXPIRED and ACTIVE via both paths. -/
theorem status_dispatch_witness :
    (verifyPayment sPendingBuy 7 "GOLD_TXN_7_1_100" "PAID" (some "cfA") 6850 =
      ({ sPendingBuy with
          transactions := updateById sPendingBuy.transactions 1 (fun u =>
            { u with status := TxStatus.completed, payment_id := some "cfA" }),
          portfolioRows := upsertAdd sPendingBuy.portfolioRows 7 1 },
        VerifyOutcome.success 1 6850)) ∧
    (verifyPayment sPendingBuy 7 "GOLD_TXN_7_1_100" "EXPIRED" (some "cfA") 6850 =
      ({ sPendingBuy with
          transactions := updateById sPendingBuy.transactions 1 (fun u =>
            { u with status := TxStatus.failed,
                     payment_id := jsOrStr (some "cfA") none }) },
        VerifyOutcome.paymentNotSuccessful "EXPIRED")) ∧
    (webhookCashfree sPendingBuy "GOLD_TXN_7_1_100" "EXPIRED" (some "cfA") =
      ({ sPendingBuy with
          transactions := updateById sPendingBuy.transactions 1 (fun u =>
            { u with status := TxStatus.failed,
                     payment_id := jsOrStr (some "cfA") none }) },
        WebhookOutcome.failedNow)) ∧
    (verifyPayment sPendingBuy 7 "GOLD_TXN_7_1_100" "ACTIVE" (some "cfA") 6850 =
      (sPendingBuy, VerifyOutcome.stillPending "ACTIVE")) ∧
    (webhookCashfree sPendingBuy "GOLD_TXN_7_1_100" "ACTIVE" (some "cfA") =
      (sPendingBuy, WebhookOutcome.nonTerminalIgnored)) := by
  have h := @status_dispatch sPendingBuy "GOLD_TXN_7_1_100" 7 pendingBuyTxn
    (by decide) (by decide) (by decide) rfl (by decide) (some "cfA") (some "cfA") 6850
  have hexp := h.2.2.1 "EXPIRED" (by decide)
  have hact := h.2.2.2 "ACTIVE" (by decide) (by decide)
  exact ⟨h.1, hexp.1, hexp.2, hact.1, hact.2⟩

/-- C5: the callback path and the poll path agree: invoked by the owner of a
pending request (whose payment reference is not yet set and whose external
order id matches), every reported status produces the same state transition,
the same ledger effect, and the same outcome classification on both paths;
and racing the two calls for the same paid order yields the same final state
and a single ledger increment regardless of which runs first (the loser
observes the already-terminal row). -/
theorem poll_callback_equivalent {s : DBState} {oid : String} {uid : Nat} {t : Txn}
    (hfind : s.transactions.find? (fun x =>
      x.cashfree_order_id == some oid && x.user_id == uid) = some t)
    (hwfind : s.transactions.find? (fun x => x.cashfree_order_id == some oid) = some t)
    (hfindp : s.transactions.find? (fun x =>
      x.cashfree_order_id == some oid && x.user_id == uid &&
      x.status == TxStatus.pending) = some t)
    (hp : t.status = TxStatus.pending) (hg : 0 < t.grams)
    (hpay : t.payment_id = none)
    (ref : Option String) (amt : ℚ) (href : ¬ ref = some "") :
    (∀ gw, (verifyPayment s uid oid gw ref amt).1 = (webhookCashfree s oid gw ref).1 ∧
      classifyVerify (verifyPayment s uid oid gw ref amt).2 =
        classifyWebhook (webhookCashfree s oid gw ref).2) ∧
    webhookCashfree (verifyPayment s uid oid "PAID" ref amt).1 oid "PAID" ref =
      ((verifyPayment s uid oid "PAID" ref amt).1, WebhookOutcome.ignoredTerminal) ∧
    verifyPayment (webhookCashfree s oid "PAID" ref).1 uid oid "PAID" ref amt =
      ((webhookCashfree s oid "PAID" ref).1,
        VerifyOutcome.alreadyVerified t.grams t.amount_inr) ∧
    (webhookCashfree (verifyPayment s uid oid "PAID" ref amt).1 oid "PAID" ref).1 =
      (verifyPayment (webhookCashfree s oid "PAID" ref).1 uid oid "PAID" ref amt).1 ∧
    portVal (webhookCashfree (verifyPayment s uid oid "PAID" ref amt).1
        oid "PAID" ref).1 uid = portVal s uid + t.grams := by
  obtain ⟨htmem, hoid, huid⟩ := find_orderUser_facts hfind
  have hjs : jsOrStr ref t.payment_id = ref := by
    rw [hpay]
    cases ref with
    | none => rfl
    | some r =>
        have hr : ¬ r = "" := fun he => href (by rw [he])
        simp [jsOrStr, strTruthy, hr]
  have hnc : ¬ t.status = TxStatus.completed := by
    rw [hp]
    exact fun hx => TxStatus.noConfusion hx
  have hng : ¬ t.grams ≤ 0 := not_le.mpr hg
  have hterm : ¬ (t.status = TxStatus.completed ∨ t.status = TxStatus.failed) := by
    rw [hp]
    rintro (hx | hx) <;> exact TxStatus.noConfusion hx
  have h1 : verifyPayment s uid oid "PAID" ref amt =
      ({ s with
          transactions := updateById s.transactions t.id (fun u =>
            { u with status := TxStatus.completed, payment_id := ref }),
          portfolioRows := upsertAdd s.portfolioRows uid t.grams },
        VerifyOutcome.success t.grams amt) := by
    unfold verifyPayment
    rw [if_pos rfl, hfind]
    dsimp only
    rw [if_neg hnc, if_neg (not_not_intro hp), if_neg hng]
  have h1w : webhookCashfree s oid "PAID" ref =
      ({ s with
          transactions := updateById s.transactions t.id (fun u =>
            { u with status := TxStatus.completed,
                     payment_id := jsOrStr ref t.payment_id }),
          portfolioRows := upsertAdd s.portfolioRows t.user_id t.grams },
        WebhookOutcome.completedNow) := by
    unfold webhookCashfree
    rw [hwfind]
    dsimp only
    rw [if_neg hterm, if_pos rfl, if_neg hng]
  have hstates : ({ s with
          transactions := updateById s.transactions t.id (fun u =>
            { u with status := TxStatus.completed,
                     payment_id := jsOrStr ref t.payment_id }),
          portfolioRows := upsertAdd s.portfolioRows t.user_id t.grams } : DBState) =
      { s with
          transactions := updateById s.transactions t.id (fun u =>
            { u with status := TxStatus.completed, payment_id := ref }),
          portfolioRows := upsertAdd s.portfolioRows uid t.grams } := by
    rw [hjs, huid]
  have hf2 := find?_updateById hwfind t.id
    (fun u => { u with status := TxStatus.completed, payment_id := ref })
    (by intro u; by_cases h : u.id = t.id <;> simp [h])
  rw [if_pos rfl] at hf2
  have hf3 := find?_updateById hfind t.id
    (fun u => { u with status := TxStatus.completed,
                       payment_id := jsOrStr ref t.payment_id })
    (by intro u; by_cases h : u.id = t.id <;> simp [h])
  rw [if_pos rfl] at hf3
  have hB : webhookCashfree (verifyPayment s uid oid "PAID" ref amt).1 oid "PAID" ref =
      ((verifyPayment s uid oid "PAID" ref amt).1, WebhookOutcome.ignoredTerminal) := by
    rw [h1]
    dsimp only
    unfold webhookCashfree
    rw [hf2]
    dsimp only
    rw [if_pos (Or.inl rfl)]
  have hC : verifyPayment (webhookCashfree s oid "PAID" ref).1 uid oid "PAID" ref amt =
      ((webhookCashfree s oid "PAID" ref).1,
        VerifyOutcome.alreadyVerified t.grams t.amount_inr) := by
    rw [h1w]
    dsimp only
    unfold verifyPayment
    rw [if_pos rfl]
    dsimp only
    rw [hf3]
    dsimp only
    rw [if_pos rfl]
  refine ⟨?_, hB, hC, ?_, ?_⟩
  · intro gw
    by_cases hgw : gw = "PAID"
    · subst hgw
      rw [h1, h1w, hstates]
      exact ⟨rfl, rfl⟩
    · by_cases htf : gw ∈ terminalFailureStatuses
      · constructor
        · show (verifyPayment s uid oid gw ref amt).1 = (webhookCashfree s oid gw ref).1
          unfold verifyPayment webhookCashfree
          rw [if_neg hgw, if_pos htf, hfindp, hwfind]
          dsimp only
          rw [if_neg hterm, if_neg hgw, if_pos htf]
          dsimp only
          have hjs2 : jsOrStr ref none = ref := by
            rw [← hpay]
            exact hjs
          rw [hjs, hjs2]
        · show classifyVerify (verifyPayment s uid oid gw ref amt).2 =
            classifyWebhook (webhookCashfree s oid gw ref).2
          unfold verifyPayment webhookCashfree
          rw [if_neg hgw, if_pos htf, hfindp, hwfind]
          dsimp only
          rw [if_neg hterm, if_neg hgw, if_pos htf]
          rfl
      · constructor
        · show (verifyPayment s uid oid gw ref amt).1 = (webhookCashfree s oid gw ref).1
          unfold verifyPayment webhookCashfree
          rw [if_neg hgw, if_neg htf, hwfind]
          dsimp only
          rw [if_neg hterm, if_neg hgw, if_neg htf]
        · show classifyVerify (verifyPayment s uid oid gw ref amt).2 =
            classifyWebhook (webhookCashfree s oid gw ref).2
          unfold verifyPayment webhookCashfree
          rw [if_neg hgw, if_neg htf, hwfind]
          dsimp only
          rw [if_neg hterm, if_neg hgw, if_neg htf]
          rfl
  · rw [hB, hC]
    dsimp only
    rw [h1, h1w, hstates]
  · rw [hB]
    dsimp only
    rw [h1]
    dsimp only
    unfold portVal
    dsimp only
    rw [portLookup_upsertAdd_self]
    simp

/-- Witness for C5: the two paths agree on the pending Buy of Scenario A, and
racing them for the paid order leaves one increment and the same final state. -/
theorem poll_callback_equivalent_witness :
    ((verifyPayment sPendingBuy 7 "GOLD_TXN_7_1_100" "EXPIRED" (some "cfA") 6850).1 =
      (webhookCashfree sPendingBuy "GOLD_TXN_7_1_100" "EXPIRED" (some "cfA")).1 ∧
    classifyVerify
        (verifyPayment sPendingBuy 7 "GOLD_TXN_7_1_100" "EXPIRED" (some "cfA") 6850).2 =
      classifyWebhook
        (webhookCashfree sPendingBuy "GOLD_TXN_7_1_100" "EXPIRED" (some "cfA")).2) ∧
    webhookCashfree
        (verifyPayment sPendingBuy 7 "GOLD_TXN_7_1_100" "PAID" (some "cfA") 6850).1
        "GOLD_TXN_7_1_100" "PAID" (some "cfA") =
      ((verifyPayment sPendingBuy 7 "GOLD_TXN_7_1_100" "PAID" (some "cfA") 6850).1,
        WebhookOutcome.ignoredTerminal) ∧
    (webhookCashfree
        (verifyPayment sPendingBuy 7 "GOLD_TXN_7_1_100" "PAID" (some "cfA") 6850).1
        "GOLD_TXN_7_1_100" "PAID" (some "cfA")).1 =
      (verifyPayment
        (webhookCashfree sPendingBuy "GOLD_TXN_7_1_100" "PAID" (some "cfA")).1
        7 "GOLD_TXN_7_1_100" "PAID" (some "cfA") 6850).1 ∧
    portVal (webhookCashfree
        (verifyPayment sPendingBuy 7 "GOLD_TXN_7_1_100" "PAID" (some "cfA") 6850).1
        "GOLD_TXN_7_1_100" "PAID" (some "cfA")).1 7 =
      portVal sPendingBuy 7 + 1 := by
  have h := @poll_callback_equivalent sPendingBuy "GOLD_TXN_7_1_100" 7 pendingBuyTxn
    (by decide) (by decide) (by decide) rfl (by decide) rfl
    (some "cfA") 6850 (by decide)
  exact ⟨h.1 "EXPIRED", h.2.1, h.2.2.2.1, h.2.2.2.2⟩

/-- C6: createRequest for Withdraw fails with InsufficientBalance exactly
when the account's current ledger balance is strictly less than the requested
units (pending withdrawals are not counted — the balance read is the stored
`total_grams` alone); with a valid price, a request for units ≤ the balance
succeeds and persists the pending row. -/
theorem sell_insufficient_balance_iff {s : DBState} {uid : Nat} (g : ℚ)
    (details : Option UserKyc) (price : Option ℚ)
    (hkyc : kycComplete details = true) (hg : 0 < g) :
    ((sellRequest s uid (some g) details price).2 =
        SellOutcome.insufficientBalance (portVal s uid) ↔ portVal s uid < g) ∧
    (∀ p, price = some p → 0 < p → g ≤ portVal s uid →
      sellRequest s uid (some g) details price =
        ({ s with
            transactions := s.transactions ++
              [{ id := s.nextId, user_id := uid, type := TxType.withdraw,
                 status := TxStatus.pending, amount_inr := round2 (g * p),
                 grams := g, price_per_gram := p, payment_id := none,
                 cashfree_order_id := none, rejected_reason := none }],
            nextId := s.nextId + 1 },
         SellOutcome.created g (round2 (g * p)))) := by
  have hng : ¬ g ≤ 0 := not_le.mpr hg
  constructor
  · by_cases hlt : portVal s uid < g
    · have : (sellRequest s uid (some g) details price).2 =
          SellOutcome.insufficientBalance (portVal s uid) := by
        unfold sellRequest
        dsimp only
        rw [if_neg hng, if_neg (not_not_intro hkyc), if_pos hlt]
      exact ⟨fun _ => hlt, fun _ => this⟩
    · constructor
      · intro heq
        exfalso
        unfold sellRequest at heq
        dsimp only at heq
        rw [if_neg hng, if_neg (not_not_intro hkyc), if_neg hlt] at heq
        cases price with
        | none => exact SellOutcome.noConfusion heq
        | some p =>
            dsimp only at heq
            by_cases hp : p ≤ 0
            · rw [if_pos hp] at heq
              exact SellOutcome.noConfusion heq
            · rw [if_neg hp] at heq
              exact SellOutcome.noConfusion heq
      · intro hx
        exact absurd hx hlt
  · intro p hpr hp hge
    subst hpr
    unfold sellRequest
    dsimp only
    rw [if_neg hng, if_neg (not_not_intro hkyc), if_neg (not_lt.mpr hge),
      if_neg (not_le.mpr hp)]

/-- Witness for C6: with a 2.0000-gram balance, selling 2.0001 grams fails
with InsufficientBalance and selling exactly 2.0000 grams succeeds. -/
theorem sell_insufficient_balance_iff_witness :
    (sellRequest sBalanceTwo 7 (some (20001 / 10000)) (some fullKyc) (some 6850)).2 =
      SellOutcome.insufficientBalance 2 ∧
    sellRequest sBalanceTwo 7 (some 2) (some fullKyc) (some 6850) =
      ({ sBalanceTwo with
          transactions := sBalanceTwo.transactions ++
            [{ id := 1, user_id := 7, type := TxType.withdraw,
               status := TxStatus.pending, amount_inr := round2 (2 * 6850),
               grams := 2, price_per_gram := 6850, payment_id := none,
               cashfree_order_id := none, rejected_reason := none }],
          nextId := 2 },
       SellOutcome.created 2 (round2 (2 * 6850))) :=
  ⟨(@sell_insufficient_balance_iff sBalanceTwo 7 (20001 / 10000)
      (some fullKyc) (some 6850) (by decide) (by norm_num)).1.mpr
      (by norm_num [portVal, portLookup, sBalanceTwo]),
   (@sell_insufficient_balance_iff sBalanceTwo 7 2
      (some fullKyc) (some 6850) (by decide) (by decide)).2 6850 rfl
      (by decide) (by decide)⟩

/-- C7: every createRequest validation failure (InvalidAmount, invalid or
unavailable price, IdentityIncomplete, InsufficientBalance) is detected
before any write: whenever such an outcome is returned, the database state is
unchanged — no transaction row is persisted. -/
theorem validation_failures_no_write (s : DBState) (uid : Nat)
    (grams amount : Option ℚ) (details : Option UserKyc) (price : Option ℚ)
    (now : Nat) (gOk uFound : Bool) :
    ((sellRequest s uid grams details price).2 = SellOutcome.invalidAmount ∨
      (sellRequest s uid grams details price).2 = SellOutcome.kycRequired ∨
      (∃ b, (sellRequest s uid grams details price).2 =
        SellOutcome.insufficientBalance b) ∨
      (sellRequest s uid grams details price).2 = SellOutcome.priceError →
      (sellRequest s uid grams details price).1 = s) ∧
    ((createOrder s uid amount price now gOk uFound).2 =
        CreateOrderOutcome.invalidAmount ∨
      (createOrder s uid amount price now gOk uFound).2 =
        CreateOrderOutcome.priceError ∨
      (createOrder s uid amount price now gOk uFound).2 =
        CreateOrderOutcome.invalidGrams →
      (createOrder s uid amount price now gOk uFound).1 = s) := by
  constructor
  · unfold sellRequest
    cases grams with
    | none => exact fun _ => rfl
    | some g =>
        dsimp only
        split
        · exact fun _ => rfl
        · split
          · exact fun _ => rfl
          · split
            · exact fun _ => rfl
            · cases price with
              | none => exact fun _ => rfl
              | some p =>
                  dsimp only
                  split
                  · exact fun _ => rfl
                  · intro h
                    rcases h with h | h | ⟨b, h⟩ | h <;>
                      exact SellOutcome.noConfusion h
  · unfold createOrder
    cases amount with
    | none => exact fun _ => rfl
    | some a =>
        dsimp only
        split
        · exact fun _ => rfl
        · cases price with
          | none => exact fun _ => rfl
          | some p =>
              dsimp only
              split
              · exact fun _ => rfl
              · split
                · exact fun _ => rfl
                · split
                  · exact fun _ => rfl
                  · split
                    · exact fun _ => rfl
                    · intro h
                      rcases h with h | h | h <;>
                        exact CreateOrderOutcome.noConfusion h

/-- Witness for C7: Scenario D (identity-incomplete withdrawal) persists no
row, and a non-positive buy amount persists no row. -/
theorem validation_failures_no_write_witness :
    (sellRequest sBalanceTwo 7 (some 1) (some incompleteKyc) (some 6850)).1 =
      sBalanceTwo ∧
    (createOrder sBalanceTwo 7 (some (-5)) (some 6850) 0 true true).1 =
      sBalanceTwo :=
  ⟨(validation_failures_no_write sBalanceTwo 7 (some 1) (some (-5))
      (some incompleteKyc) (some 6850) 0 true true).1 (Or.inr (Or.inl (by decide))),
   (validation_failures_no_write sBalanceTwo 7 (some 1) (some (-5))
      (some incompleteKyc) (some 6850) 0 true true).2 (Or.inl (by decide))⟩

/-- C8: on Approve, decideWithdrawal re-validates that the stored balance
covers the request's units; when it does not, the request transitions to
rejected with the system-supplied reason, the holding is left unchanged, and
the caller receives the distinguishable auto-rejected outcome (no error, no
exception). -/
theorem approve_auto_rejects_on_insufficient_balance {s : DBState} {txnId : Nat}
    {t : Txn} {refId : String}
    (hfind : s.transactions.find? (fun x => x.id == txnId &&
      x.type == TxType.withdraw && x.status == TxStatus.pending) = some t)
    (href : ¬ strTrim refId = "")
    (hlt : portVal s t.user_id < t.grams) :
    approveWithdrawal s txnId refId =
      ({ s with
          transactions := updateById s.transactions t.id (fun u =>
            { u with status := TxStatus.rejected,
                     rejected_reason := some autoRejectReason }) },
        ApproveOutcome.autoRejected (portVal s t.user_id)) ∧
    (approveWithdrawal s txnId refId).1.portfolioRows = s.portfolioRows := by
  have h : approveWithdrawal s txnId refId =
      ({ s with
          transactions := updateById s.transactions t.id (fun u =>
            { u with status := TxStatus.rejected,
                     rejected_reason := some autoRejectReason }) },
        ApproveOutcome.autoRejected (portVal s t.user_id)) := by
    unfold approveWithdrawal
    rw [if_neg href, hfind]
    dsimp only
    rw [if_pos hlt]
  exact ⟨h, by rw [h]⟩

/-- Witness for C8: Scenario C — a pending 2.0000-gram withdrawal against a
balance that has dropped to 1.0000 grams is auto-rejected, balance unchanged. -/
theorem approve_auto_rejects_witness :
    approveWithdrawal sPendingWithdraw 1 "UTR123" =
      ({ sPendingWithdraw with
          transactions := updateById sPendingWithdraw.transactions 1 (fun u =>
            { u with status := TxStatus.rejected,
                     rejected_reason := some autoRejectReason }) },
        ApproveOutcome.autoRejected 1) ∧
    (approveWithdrawal sPendingWithdraw 1 "UTR123").1.portfolioRows =
      sPendingWithdraw.portfolioRows :=
  @approve_auto_rejects_on_insufficient_balance sPendingWithdraw 1
    pendingWithdrawTxn "UTR123" (by decide) (by decide) (by decide)

theorem forall2_updateById {txns : List Txn} {t : Txn} (f : Txn → Txn)
    (Q : Txn → Prop) (hn : (txns.map Txn.id).Nodup) (ht : t ∈ txns) (hQ : Q t) :
    List.Forall₂ (fun a b => b = a ∨ Q a) txns (updateById txns t.id f) := by
  induction txns with
  | nil => exact List.Forall₂.nil
  | cons x xs ih =>
      have hn0 := hn
      rw [List.map_cons, List.nodup_cons] at hn0
      rw [updateById_cons]
      rcases List.mem_cons.mp ht with rfl | htx
      · rw [if_pos rfl]
        refine List.Forall₂.cons (Or.inr hQ) ?_
        rw [updateById_eq_self xs t.id f
          (fun u hu he => hn0.1 (he ▸ List.mem_map_of_mem Txn.id hu))]
        exact List.forall₂_same.mpr (fun u _ => Or.inl rfl)
      · have hxid : x.id ≠ t.id := fun he =>
          hn0.1 (he ▸ List.mem_map_of_mem Txn.id htx)
        rw [if_neg hxid]
        exact List.Forall₂.cons (Or.inl rfl) (ih hn0.2 htx)

/-- C10: the poll-path settlement is scoped to the authenticated caller: the
only transaction rows it may mutate match both the given external order id
and the caller's account; the only holding it may mutate is the caller's own;
a paid order belonging to a different account is reported as not found with
nothing changed — whereas the callback path, which matches by order id alone,
never reports not-found when any row carries that order id. -/
theorem verify_scoped_to_caller {s : DBState} (uid : Nat) (oid : String)
    (hn : (s.transactions.map Txn.id).Nodup) :
    (∀ gw ref amt,
      List.Forall₂ (fun a b => b = a ∨
          (a.cashfree_order_id = some oid ∧ a.user_id = uid))
        s.transactions (verifyPayment s uid oid gw ref amt).1.transactions ∧
      (∀ u, ¬ u = uid →
        portVal (verifyPayment s uid oid gw ref amt).1 u = portVal s u)) ∧
    ((∀ u ∈ s.transactions, u.cashfree_order_id = some oid → ¬ u.user_id = uid) →
      ∀ ref amt, verifyPayment s uid oid "PAID" ref amt = (s, VerifyOutcome.notFound)) ∧
    (∀ t, s.transactions.find? (fun x => x.cashfree_order_id == some oid) = some t →
      ∀ gw cf, ¬ (webhookCashfree s oid gw cf).2 = WebhookOutcome.notFoundIgnored) := by
  have hrefl : ∀ l : List Txn,
      List.Forall₂ (fun a b => b = a ∨
        (a.cashfree_order_id = some oid ∧ a.user_id = uid)) l l :=
    fun l => List.forall₂_same.mpr (fun u _ => Or.inl rfl)
  refine ⟨?_, ?_, ?_⟩
  · intro gw ref amt
    unfold verifyPayment
    by_cases hgw : gw = "PAID"
    · rw [if_pos hgw]
      cases hfind : s.transactions.find? (fun x =>
          x.cashfree_order_id == some oid && x.user_id == uid) with
      | none => exact ⟨hrefl _, fun u _ => rfl⟩
      | some t =>
          obtain ⟨ht, hoid, huid⟩ := find_orderUser_facts hfind
          dsimp only
          by_cases hc : t.status = TxStatus.completed
          · rw [if_pos hc]
            exact ⟨hrefl _, fun u _ => rfl⟩
          · rw [if_neg hc]
            by_cases hp : t.status = TxStatus.pending
            · rw [if_neg (not_not_intro hp)]
              by_cases hgr : t.grams ≤ 0
              · rw [if_pos hgr]
                exact ⟨hrefl _, fun u _ => rfl⟩
              · rw [if_neg hgr]
                refine ⟨forall2_updateById _ _ hn ht ⟨hoid, huid⟩, ?_⟩
                intro u hu
                unfold portVal
                dsimp only
                rw [portLookup_upsertAdd_other _ _ _ _ hu]
            · rw [if_pos hp]
              exact ⟨hrefl _, fun u _ => rfl⟩
    · rw [if_neg hgw]
      by_cases htf : gw ∈ terminalFailureStatuses
      · rw [if_pos htf]
        cases hfind : s.transactions.find? (fun x =>
            x.cashfree_order_id == some oid && x.user_id == uid &&
            x.status == TxStatus.pending) with
        | none => exact ⟨hrefl _, fun u _ => rfl⟩
        | some t =>
            obtain ⟨ht, hoid, huid, _⟩ := find_orderUserPending_facts hfind
            dsimp only
            exact ⟨forall2_updateById _ _ hn ht ⟨hoid, huid⟩, fun u _ => rfl⟩
      · rw [if_neg htf]
        exact ⟨hrefl _, fun u _ => rfl⟩
  · intro hno ref amt
    unfold verifyPayment
    rw [if_pos rfl]
    cases hfind : s.transactions.find? (fun x =>
        x.cashfree_order_id == some oid && x.user_id == uid) with
    | none => rfl
    | some t =>
        obtain ⟨ht, hoid, huid⟩ := find_orderUser_facts hfind
        exact absurd huid (hno t ht hoid)
  · intro t hfind gw cf
    unfold webhookCashfree
    rw [hfind]
    dsimp only
    by_cases hterm : t.status = TxStatus.completed ∨ t.status = TxStatus.failed
    · rw [if_pos hterm]
      exact fun h => WebhookOutcome.noConfusion h
    · rw [if_neg hterm]
      by_cases hgw : gw = "PAID"
      · rw [if_pos hgw]
        by_cases hgr : t.grams ≤ 0
        · rw [if_pos hgr]
          exact fun h => WebhookOutcome.noConfusion h
        · rw [if_neg hgr]
          exact fun h => WebhookOutcome.noConfusion h
      · rw [if_neg hgw]
        by_cases htf : gw ∈ terminalFailureStatuses
        · rw [if_pos htf]
          exact fun h => WebhookOutcome.noConfusion h
        · rw [if_neg htf]
          exact fun h => WebhookOutcome.noConfusion h

/-- Witness for C10: user 9 polling user 7's paid order GOLD_TXN_7_1_100 gets
not-found with nothing changed, while the webhook (order-id-only lookup) does
not report not-found for the same order. -/
theorem verify_scoped_to_caller_witness :
    List.Forall₂ (fun a b => b = a ∨
        (a.cashfree_order_id = some "GOLD_TXN_7_1_100" ∧ a.user_id = 9))
      sPendingBuy.transactions
      (verifyPayment sPendingBuy 9 "GOLD_TXN_7_1_100" "PAID" (some "cfA")
        6850).1.transactions ∧
    portVal (verifyPayment sPendingBuy 9 "GOLD_TXN_7_1_100" "PAID" (some "cfA")
        6850).1 7 = portVal sPendingBuy 7 ∧
    verifyPayment sPendingBuy 9 "GOLD_TXN_7_1_100" "PAID" (some "cfA") 6850 =
      (sPendingBuy, VerifyOutcome.notFound) ∧
    ¬ (webhookCashfree sPendingBuy "GOLD_TXN_7_1_100" "PAID" (some "cfA")).2 =
      WebhookOutcome.notFoundIgnored := by
  have h := @verify_scoped_to_caller sPendingBuy 9 "GOLD_TXN_7_1_100" (by decide)
  exact ⟨(h.1 "PAID" (some "cfA") 6850).1,
    (h.1 "PAID" (some "cfA") 6850).2 7 (by decide),
    h.2.1 (by decide) (some "cfA") 6850,
    h.2.2 pendingBuyTxn (by decide) "PAID" (some "cfA")⟩

end GoldApp
